import Mathlib

/-!
# fmpcloud-go, `stock.go`: the request/decode cycle of the `Stock` client

A shallow embedding of `src/stock.go`.  Every method of `Stock` builds a URL and a query-parameter
map, performs one GET through the resty client, and unmarshals the response body.

* The resty client is a function from requests to `Except GoError Response` (`Transport`).
* `json.Unmarshal(body, &target)` is a function from the body and the current target to the
  updated target and an optional error (`Decoder`); a failing decoder may still have changed the
  target.
* Go's multiple return `(result, error)` is the record `Outcome`, which also lists the external
  calls the method performed, in order (`Step`).
* Package `objects` is not among the sources.  Result shapes are a type parameter, nil-able Go
  values (slices, pointers) are `Option`, string-kinded selectors are `String`, and the three index
  selectors are the fields of `IndexSelectors`.
-/

set_option autoImplicit false

namespace Fmpcloud

/-! ## Go library functions used by `stock.go` -/

/-- Go `error` value, seen through its `Error()` message. -/
structure GoError where
  msg : String
  deriving DecidableEq, Repr

/-- Go `errors.New(text)`. -/
def errorsNew (text : String) : GoError := ⟨text⟩

/-- Go `http.StatusOK`. -/
def StatusOK : Int := 200

/-- Go `map[string]string`, as the list of its entries (keys are distinct). -/
abbrev Params := List (String × String)

/-- Go `m[key]` with the comma-ok form: the value stored under `key`, if any. -/
def Params.get? (m : Params) (key : String) : Option String :=
  match m with
  | [] => none
  | (k, v) :: rest => if k = key then some v else Params.get? rest key

/-- Go `m[key] = value`: overwrite the entry of `key`, or add one. -/
def Params.set (m : Params) (key value : String) : Params :=
  match m with
  | [] => [(key, value)]
  | (k, v) :: rest => if k = key then (key, value) :: rest else (k, v) :: Params.set rest key value

/-- Worker of `Sprintf` on the characters of the format: each `%s` verb consumes the next
operand; a verb without operand prints Go's `%!s(MISSING)`.  Only the `%s` verb occurs in the
templates of `stock.go`. -/
def sprintfAux : List Char → List String → List Char
  | [], _ => []
  | '%' :: 's' :: rest, a :: as => a.data ++ sprintfAux rest as
  | '%' :: 's' :: rest, [] => "%!s(MISSING)".data ++ sprintfAux rest []
  | c :: rest, as => c :: sprintfAux rest as

/-- Go `fmt.Sprintf(format, a...)` for string operands. -/
def Sprintf (format : String) (a : List String) : String := ⟨sprintfAux format.data a⟩

/-- Go `fmt.Sprint(x)` for an integer operand: its decimal form. -/
def Sprint : Int → String
  | Int.ofNat m => Nat.repr m
  | Int.negSucc m => "-" ++ Nat.repr (m + 1)

/-- Go `strings.Join(elems, sep)`: no element gives the empty string, one element gives itself,
otherwise the first element followed by `sep` and the next element, for each further element. -/
def Join (elems : List String) (sep : String) : String :=
  match elems with
  | [] => ""
  | [e] => e
  | e :: rest => rest.foldl (fun b s => b ++ sep ++ s) e

/-- Go `time.Time`, seen through `t.Date()`: the year (any integer), the month 1..12 and the day
of the month 1..31 in the time's location. -/
structure Time where
  year : Int
  month : Nat
  day : Nat
  month_range : 1 ≤ month ∧ month ≤ 12
  day_range : 1 ≤ day ∧ day ≤ 31

/-- The byte `'0' + d` of Go's digit tables. -/
def digit (d : Nat) : Char := Char.ofNat (48 + d)

/-- Two decimal digits of a value below 100 (Go's two-digit table lookup). -/
def utoa2 (u : Nat) : List Char := [digit (u / 10), digit (u % 10)]

/-- Go `time.appendInt(b, x, width)`: append the decimal form of `x` to `b`, after a minus sign
when `x` is negative, padded with leading zeros when shorter than `width`. -/
def appendInt (b : List Char) (x : Int) (width : Nat) : List Char :=
  let u := x.natAbs
  let b := if x < 0 then b ++ ['-'] else b
  if width = 2 ∧ u < 100 then b ++ utoa2 u
  else if width = 4 ∧ u < 10000 then b ++ utoa2 (u / 100) ++ utoa2 (u % 100)
  else
    let ds := Nat.toDigits 10 u
    b ++ List.replicate (width - ds.length) '0' ++ ds

/-- Go `t.Format("2006-01-02")`, the only layout `stock.go` uses: the long year, a dash, the
zero-padded month, a dash, the zero-padded day. -/
def Time.Format (t : Time) : String :=
  let b := appendInt [] t.year 4
  let b := b ++ ['-']
  let b := appendInt b (Int.ofNat t.month) 2
  let b := b ++ ['-']
  let b := appendInt b (Int.ofNat t.day) 2
  ⟨b⟩

/-! ## Transport, decoder, outcomes -/

/-- What is handed to resty: the URL of `Get` and the map of `SetQueryParams`. -/
structure Request where
  url : String
  QueryParams : Params
  deriving DecidableEq, Repr

/-- The part of `*resty.Response` the methods read. -/
structure Response where
  StatusCode : Int
  Body : String
  deriving DecidableEq, Repr

/-- The resty client: `Client.R().SetQueryParams(p).Get(url)` returns a response or an error. -/
abbrev Transport := Request → Except GoError Response

/-- The call `json.Unmarshal(body, &target)`: the target after the call and the error, if any. -/
abbrev Decoder (τ : Type) := String → τ → τ × Option GoError

/-- External calls a method performs. -/
inductive Step where
  | Get (r : Request)
  | StatusCode
  | Unmarshal (body : String)
  deriving DecidableEq, Repr

/-- What a method returns (`result`, `err`), and the external calls it made, in order. -/
structure Outcome (α : Type) where
  result : Option α
  err : Option GoError
  steps : List Step

/-- The requests among the external calls of an outcome. -/
def Outcome.requests {α : Type} (o : Outcome α) : List Request :=
  o.steps.filterMap fun st => match st with
    | Step.Get r => some r
    | _ => none

/-! ## Declarations of package `objects` used by `stock.go` -/

/-- Type `objects.RequestStockSearch`: `Exchange` is a nil-able pointer, here the text its
`String()` method renders when it is not nil. -/
structure RequestStockSearch where
  Query : String
  Limit : Int
  Exchange : Option String

/-- Type `objects.RequestStockCandleList`: `From` and `To` are nil-able pointers to `time.Time`. -/
structure RequestStockCandleList where
  Period : String
  Symbol : String
  From : Option Time
  To : Option Time

/-- Type `objects.StockBatchDaily`, the wrapper `DailyBatch` decodes into; `Data` is a slice. -/
structure StockBatchDaily (α : Type) where
  Data : Option α

/-- The three constants of type `objects.Index` that the `switch` statements name. -/
structure IndexSelectors (ι : Type) where
  IndexSP500 : ι
  IndexDowJones : ι
  IndexNasdaq100 : ι

/-! ## `stock.go` -/

def urlAPIStockSymbolList : String := "/stock/list"
def urlAPIStockSymbolByExchangeList : String := "/symbol/%s"
def urlAPIStockCompanyProfile : String := "/profile/%s"
def urlAPIStockCompanyExecutives : String := "/key-executives/%s"
def urlAPIStockDividends : String := "/historical-price-full/stock_dividend/%s"
def urlAPIStockSplits : String := "/historical-price-full/stock_split/%s"
def urlAPIStockQuote : String := "/quote/%s"
def urlAPIStockQuoteShot : String := "/quote-short/%s"
def urlAPIStockQuotes : String := "/quotes/%s"
def urlAPIStockSearch : String := "/search"
def urlAPIStockSearchTicker : String := "/search-ticker"
def urlAPIStockCandles : String := "/historical-chart/%s/%s"
def urlAPIStockDaily : String := "/historical-price-full/%s"
def urlAPIStockSP500List : String := "/sp500_constituent"
def urlAPIStockHistorySP500List : String := "/historical/sp500_constituent"
def urlAPIStockDowJonesList : String := "/dowjones_constituent"
def urlAPIStockHistoryDowJonesList : String := "/historical/dowjones_constituent"
def urlAPIStockNasdaqList : String := "/nasdaq_constituent"
def urlAPIStockHistoryNasdaqList : String := "/historical/nasdaq_constituent"
def urlAPIStockEODCandles : String := "/batch-request-end-of-day-prices"
def urlAPIStockEODBatchCandles : String := "/batch-request-end-of-day-prices/%s"
def urlAPIStockMarketHours : String := "/market-hours"
def urlAPIStockActives : String := "/actives"
def urlAPIStockLosers : String := "/losers"
def urlAPIStockGainers : String := "/gainers"
def urlAPIStockSectorsPerformance : String := "/sectors-performance"
def urlAPIStockHistorySectorsPerformance : String := "/historical-sectors-performance"

/-- Stock client: the base URL and the API key (the resty client is the `Transport` argument of
each method). -/
structure Stock where
  url : String
  apiKey : String

/-- Method `QuoteShort` - real-time single quote short. -/
def Stock.QuoteShort {α : Type} (s : Stock) (Get : Transport) (Unmarshal : Decoder (Option α))
    (symbol : String) : Outcome α :=
  let req : Request := ⟨s.url ++ Sprintf urlAPIStockQuoteShot [symbol], [("apikey", s.apiKey)]⟩
  match Get req with
  | .error err => ⟨none, some err, [Step.Get req]⟩
  | .ok data =>
    match Unmarshal data.Body none with
    | (_, some err) => ⟨none, some err, [Step.Get req, Step.Unmarshal data.Body]⟩
    | (qList, none) => ⟨qList, none, [Step.Get req, Step.Unmarshal data.Body]⟩

/-- Method `Quote` - real-time single quote. -/
def Stock.Quote {α : Type} (s : Stock) (Get : Transport) (Unmarshal : Decoder (Option α))
    (symbol : String) : Outcome α :=
  let req : Request := ⟨s.url ++ Sprintf urlAPIStockQuote [symbol], [("apikey", s.apiKey)]⟩
  match Get req with
  | .error err => ⟨none, some err, [Step.Get req]⟩
  | .ok data =>
    match Unmarshal data.Body none with
    | (_, some err) => ⟨none, some err, [Step.Get req, Step.Unmarshal data.Body]⟩
    | (qList, none) => ⟨qList, none, [Step.Get req, Step.Unmarshal data.Body]⟩

/-- Method `BatchQuote` - real-time batch quote. -/
def Stock.BatchQuote {α : Type} (s : Stock) (Get : Transport) (Unmarshal : Decoder (Option α))
    (symbolList : List String) : Outcome α :=
  let req : Request :=
    ⟨s.url ++ Sprintf urlAPIStockQuote [Join symbolList ","],
      [("apikey", s.apiKey)]⟩
  match Get req with
  | .error err => ⟨none, some err, [Step.Get req]⟩
  | .ok data =>
    match Unmarshal data.Body none with
    | (_, some err) => ⟨none, some err, [Step.Get req, Step.Unmarshal data.Body]⟩
    | (qList, none) => ⟨qList, none, [Step.Get req, Step.Unmarshal data.Body]⟩

/-- Method `QuoteByExchange` - real-time single quote; `exchange` is `string(exchange)`. -/
def Stock.QuoteByExchange {α : Type} (s : Stock) (Get : Transport) (Unmarshal : Decoder (Option α))
    (exchange : String) : Outcome α :=
  let req : Request := ⟨s.url ++ Sprintf urlAPIStockQuotes [exchange], [("apikey", s.apiKey)]⟩
  match Get req with
  | .error err => ⟨none, some err, [Step.Get req]⟩
  | .ok data =>
    match Unmarshal data.Body none with
    | (_, some err) => ⟨none, some err, [Step.Get req, Step.Unmarshal data.Body]⟩
    | (qList, none) => ⟨qList, none, [Step.Get req, Step.Unmarshal data.Body]⟩

/-- Method `Search` - ticker search, with an optional exchange. -/
def Stock.Search {α : Type} (s : Stock) (Get : Transport) (Unmarshal : Decoder (Option α))
    (req : RequestStockSearch) : Outcome α :=
  let reqParam : Params := [("apikey", s.apiKey), ("limit", Sprint req.Limit), ("query", req.Query)]
  let reqParam : Params :=
    match req.Exchange with
    | some exchange => reqParam.set "exchange" exchange
    | none => reqParam
  let r : Request := ⟨s.url ++ urlAPIStockSearch, reqParam⟩
  match Get r with
  | .error err => ⟨none, some err, [Step.Get r]⟩
  | .ok data =>
    match Unmarshal data.Body none with
    | (_, some err) => ⟨none, some err, [Step.Get r, Step.Unmarshal data.Body]⟩
    | (sList, none) => ⟨sList, none, [Step.Get r, Step.Unmarshal data.Body]⟩

/-- Method `SearchTiker` - ticker search, with an optional exchange. -/
def Stock.SearchTiker {α : Type} (s : Stock) (Get : Transport) (Unmarshal : Decoder (Option α))
    (req : RequestStockSearch) : Outcome α :=
  let reqParam : Params := [("apikey", s.apiKey), ("limit", Sprint req.Limit), ("query", req.Query)]
  let reqParam : Params :=
    match req.Exchange with
    | some exchange => reqParam.set "exchange" exchange
    | none => reqParam
  let r : Request := ⟨s.url ++ urlAPIStockSearchTicker, reqParam⟩
  match Get r with
  | .error err => ⟨none, some err, [Step.Get r]⟩
  | .ok data =>
    match Unmarshal data.Body none with
    | (_, some err) => ⟨none, some err, [Step.Get r, Step.Unmarshal data.Body]⟩
    | (sList, none) => ⟨sList, none, [Step.Get r, Step.Unmarshal data.Body]⟩

/-- Method `CompanyProfile` - general information of a company; the only method that reads the
status code. -/
def Stock.CompanyProfile {α : Type} (s : Stock) (Get : Transport) (Unmarshal : Decoder (Option α))
    (symbol : String) : Outcome α :=
  let req : Request := ⟨s.url ++ Sprintf urlAPIStockCompanyProfile [symbol], [("apikey", s.apiKey)]⟩
  match Get req with
  | .error err => ⟨none, some err, [Step.Get req]⟩
  | .ok data =>
    if data.StatusCode ≠ StatusOK then
      ⟨none, some (errorsNew data.Body), [Step.Get req, Step.StatusCode]⟩
    else
      match Unmarshal data.Body none with
      | (_, some err) =>
        ⟨none, some err, [Step.Get req, Step.StatusCode, Step.Unmarshal data.Body]⟩
      | (companyProfile, none) =>
        ⟨companyProfile, none, [Step.Get req, Step.StatusCode, Step.Unmarshal data.Body]⟩

/-- Method `CompanyExecutive` - executives and members of the board of a company. -/
def Stock.CompanyExecutive {α : Type} (s : Stock) (Get : Transport) (Unmarshal : Decoder (Option α))
    (symbol : String) : Outcome α :=
  let req : Request :=
    ⟨s.url ++ Sprintf urlAPIStockCompanyExecutives [symbol],
      [("apikey", s.apiKey)]⟩
  match Get req with
  | .error err => ⟨none, some err, [Step.Get req]⟩
  | .ok data =>
    match Unmarshal data.Body none with
    | (_, some err) => ⟨none, some err, [Step.Get req, Step.Unmarshal data.Body]⟩
    | (companyProfile, none) => ⟨companyProfile, none, [Step.Get req, Step.Unmarshal data.Body]⟩

/-- Method `Candles` - historical candles, with optional bounds. -/
def Stock.Candles {α : Type} (s : Stock) (Get : Transport) (Unmarshal : Decoder (Option α))
    (req : RequestStockCandleList) : Outcome α :=
  let reqParam : Params := [("apikey", s.apiKey)]
  let reqParam : Params :=
    match req.From with
    | some t => reqParam.set "from" t.Format
    | none => reqParam
  let reqParam : Params :=
    match req.To with
    | some t => reqParam.set "to" t.Format
    | none => reqParam
  let r : Request := ⟨s.url ++ Sprintf urlAPIStockCandles [req.Period, req.Symbol], reqParam⟩
  match Get r with
  | .error err => ⟨none, some err, [Step.Get r]⟩
  | .ok data =>
    match Unmarshal data.Body none with
    | (_, some err) => ⟨none, some err, [Step.Get r, Step.Unmarshal data.Body]⟩
    | (cList, none) => ⟨cList, none, [Step.Get r, Step.Unmarshal data.Body]⟩

/-- Method `DailyLine` - daily line; `serieType` is `string(serieType)`. -/
def Stock.DailyLine {α : Type} (s : Stock) (Get : Transport) (Unmarshal : Decoder (Option α))
    (symbol : String) (serieType : String) : Outcome α :=
  let req : Request :=
    ⟨s.url ++ Sprintf urlAPIStockDaily [symbol],
      [("apikey", s.apiKey), ("serietype", serieType)]⟩
  match Get req with
  | .error err => ⟨none, some err, [Step.Get req]⟩
  | .ok data =>
    match Unmarshal data.Body none with
    | (_, some err) => ⟨none, some err, [Step.Get req, Step.Unmarshal data.Body]⟩
    | (cList, none) => ⟨cList, none, [Step.Get req, Step.Unmarshal data.Body]⟩

/-- Method `DailyChangeAndVolume` - daily candle change and volume. -/
def Stock.DailyChangeAndVolume {α : Type} (s : Stock) (Get : Transport)
    (Unmarshal : Decoder (Option α))
    (symbol : String) : Outcome α :=
  let req : Request := ⟨s.url ++ Sprintf urlAPIStockDaily [symbol], [("apikey", s.apiKey)]⟩
  match Get req with
  | .error err => ⟨none, some err, [Step.Get req]⟩
  | .ok data =>
    match Unmarshal data.Body none with
    | (_, some err) => ⟨none, some err, [Step.Get req, Step.Unmarshal data.Body]⟩
    | (cList, none) => ⟨cList, none, [Step.Get req, Step.Unmarshal data.Body]⟩

/-- Method `DailySpecificPeriod` - daily candle list by specific period. -/
def Stock.DailySpecificPeriod {α : Type} (s : Stock) (Get : Transport)
    (Unmarshal : Decoder (Option α))
    (symbol : String) (from_ to_ : Time) : Outcome α :=
  let req : Request :=
    ⟨s.url ++ Sprintf urlAPIStockDaily [symbol],
      [("apikey", s.apiKey), ("from", from_.Format), ("to", to_.Format)]⟩
  match Get req with
  | .error err => ⟨none, some err, [Step.Get req]⟩
  | .ok data =>
    match Unmarshal data.Body none with
    | (_, some err) => ⟨none, some err, [Step.Get req, Step.Unmarshal data.Body]⟩
    | (cList, none) => ⟨cList, none, [Step.Get req, Step.Unmarshal data.Body]⟩

/-- Method `DailyLastNDays` - daily candle list of the last N days. -/
def Stock.DailyLastNDays {α : Type} (s : Stock) (Get : Transport) (Unmarshal : Decoder (Option α))
    (symbol : String) (days : Int) : Outcome α :=
  let req : Request :=
    ⟨s.url ++ Sprintf urlAPIStockDaily [symbol],
      [("apikey", s.apiKey), ("timeseries", Sprint days)]⟩
  match Get req with
  | .error err => ⟨none, some err, [Step.Get req]⟩
  | .ok data =>
    match Unmarshal data.Body none with
    | (_, some err) => ⟨none, some err, [Step.Get req, Step.Unmarshal data.Body]⟩
    | (cList, none) => ⟨cList, none, [Step.Get req, Step.Unmarshal data.Body]⟩

/-- Method `DailyBatch` - daily candle list of several symbols, with optional bounds; decodes
into the wrapper `StockBatchDaily` and returns its `Data`. -/
def Stock.DailyBatch {α : Type} (s : Stock) (Get : Transport)
    (Unmarshal : Decoder (StockBatchDaily α)) (symbolList : List String)
    (from_ to_ : Option Time) : Outcome α :=
  let reqParam : Params := [("apikey", s.apiKey)]
  let reqParam : Params :=
    match from_ with
    | some t => reqParam.set "from" t.Format
    | none => reqParam
  let reqParam : Params :=
    match to_ with
    | some t => reqParam.set "to" t.Format
    | none => reqParam
  let r : Request := ⟨s.url ++ Sprintf urlAPIStockDaily [Join symbolList ","], reqParam⟩
  match Get r with
  | .error err => ⟨none, some err, [Step.Get r]⟩
  | .ok data =>
    match Unmarshal data.Body ⟨none⟩ with
    | (_, some err) => ⟨none, some err, [Step.Get r, Step.Unmarshal data.Body]⟩
    | (resp, none) => ⟨resp.Data, none, [Step.Get r, Step.Unmarshal data.Body]⟩

/-- Method `Dividends` - stock dividends. -/
def Stock.Dividends {α : Type} (s : Stock) (Get : Transport) (Unmarshal : Decoder (Option α))
    (symbol : String) : Outcome α :=
  let req : Request := ⟨s.url ++ Sprintf urlAPIStockDividends [symbol], [("apikey", s.apiKey)]⟩
  match Get req with
  | .error err => ⟨none, some err, [Step.Get req]⟩
  | .ok data =>
    match Unmarshal data.Body none with
    | (_, some err) => ⟨none, some err, [Step.Get req, Step.Unmarshal data.Body]⟩
    | (dList, none) => ⟨dList, none, [Step.Get req, Step.Unmarshal data.Body]⟩

/-- Method `Splits` - stock splits. -/
def Stock.Splits {α : Type} (s : Stock) (Get : Transport) (Unmarshal : Decoder (Option α))
    (symbol : String) : Outcome α :=
  let req : Request := ⟨s.url ++ Sprintf urlAPIStockSplits [symbol], [("apikey", s.apiKey)]⟩
  match Get req with
  | .error err => ⟨none, some err, [Step.Get req]⟩
  | .ok data =>
    match Unmarshal data.Body none with
    | (_, some err) => ⟨none, some err, [Step.Get req, Step.Unmarshal data.Body]⟩
    | (sList, none) => ⟨sList, none, [Step.Get req, Step.Unmarshal data.Body]⟩

/-- Method `AvalibleSymbolsByExchange` - symbol list by exchange; `exchange` is
`string(exchange)`. -/
def Stock.AvalibleSymbolsByExchange {α : Type} (s : Stock) (Get : Transport)
    (Unmarshal : Decoder (Option α))
    (exchange : String) : Outcome α :=
  let req : Request :=
    ⟨s.url ++ Sprintf urlAPIStockSymbolByExchangeList [exchange],
      [("apikey", s.apiKey)]⟩
  match Get req with
  | .error err => ⟨none, some err, [Step.Get req]⟩
  | .ok data =>
    match Unmarshal data.Body none with
    | (_, some err) => ⟨none, some err, [Step.Get req, Step.Unmarshal data.Body]⟩
    | (sList, none) => ⟨sList, none, [Step.Get req, Step.Unmarshal data.Body]⟩

/-- Method `AvalibleSymbols` - all available symbols. -/
def Stock.AvalibleSymbols {α : Type} (s : Stock) (Get : Transport) (Unmarshal : Decoder (Option α))
    :
    Outcome α :=
  let req : Request := ⟨s.url ++ urlAPIStockSymbolList, [("apikey", s.apiKey)]⟩
  match Get req with
  | .error err => ⟨none, some err, [Step.Get req]⟩
  | .ok data =>
    match Unmarshal data.Body none with
    | (_, some err) => ⟨none, some err, [Step.Get req, Step.Unmarshal data.Body]⟩
    | (sList, none) => ⟨sList, none, [Step.Get req, Step.Unmarshal data.Body]⟩

/-- Method `IndexConstituentList` - list of index companies; the `switch` has three
cases and no default branch. -/
def Stock.IndexConstituentList {α ι : Type} [DecidableEq ι] (s : Stock) (Get : Transport)
    (Unmarshal : Decoder (Option α)) (objects : IndexSelectors ι) (index : ι) : Outcome α :=
  let url := s.url
  let url :=
    if index = objects.IndexSP500 then url ++ urlAPIStockSP500List
    else if index = objects.IndexDowJones then url ++ urlAPIStockDowJonesList
    else if index = objects.IndexNasdaq100 then url ++ urlAPIStockNasdaqList
    else url
  let req : Request := ⟨url, [("apikey", s.apiKey)]⟩
  match Get req with
  | .error err => ⟨none, some err, [Step.Get req]⟩
  | .ok data =>
    match Unmarshal data.Body none with
    | (_, some err) => ⟨none, some err, [Step.Get req, Step.Unmarshal data.Body]⟩
    | (sList, none) => ⟨sList, none, [Step.Get req, Step.Unmarshal data.Body]⟩

/-- Method `HistoryIndexConstituentList` - historical list of index companies; the `switch` has
three cases and no default branch. -/
def Stock.HistoryIndexConstituentList {α ι : Type} [DecidableEq ι] (s : Stock) (Get : Transport)
    (Unmarshal : Decoder (Option α)) (objects : IndexSelectors ι) (index : ι) : Outcome α :=
  let url := s.url
  let url :=
    if index = objects.IndexSP500 then url ++ urlAPIStockHistorySP500List
    else if index = objects.IndexDowJones then url ++ urlAPIStockHistoryDowJonesList
    else if index = objects.IndexNasdaq100 then url ++ urlAPIStockHistoryNasdaqList
    else url
  let req : Request := ⟨url, [("apikey", s.apiKey)]⟩
  match Get req with
  | .error err => ⟨none, some err, [Step.Get req]⟩
  | .ok data =>
    match Unmarshal data.Body none with
    | (_, some err) => ⟨none, some err, [Step.Get req, Step.Unmarshal data.Body]⟩
    | (sList, none) => ⟨sList, none, [Step.Get req, Step.Unmarshal data.Body]⟩

/-- Method `EODCandleList` - end-of-day prices of all stocks. -/
def Stock.EODCandleList {α : Type} (s : Stock) (Get : Transport) (Unmarshal : Decoder (Option α))
    (date : Time) : Outcome α :=
  let req : Request :=
    ⟨s.url ++ urlAPIStockEODCandles,
      [("apikey", s.apiKey), ("date", date.Format)]⟩
  match Get req with
  | .error err => ⟨none, some err, [Step.Get req]⟩
  | .ok data =>
    match Unmarshal data.Body none with
    | (_, some err) => ⟨none, some err, [Step.Get req, Step.Unmarshal data.Body]⟩
    | (sList, none) => ⟨sList, none, [Step.Get req, Step.Unmarshal data.Body]⟩

/-- Method `BatchEODCandleList` - end-of-day prices of specific stocks. -/
def Stock.BatchEODCandleList {α : Type} (s : Stock) (Get : Transport)
    (Unmarshal : Decoder (Option α))
    (symbolList : List String) (date : Time) : Outcome α :=
  let req : Request :=
    ⟨s.url ++ Sprintf urlAPIStockEODBatchCandles [Join symbolList ","],
      [("apikey", s.apiKey), ("date", date.Format)]⟩
  match Get req with
  | .error err => ⟨none, some err, [Step.Get req]⟩
  | .ok data =>
    match Unmarshal data.Body none with
    | (_, some err) => ⟨none, some err, [Step.Get req, Step.Unmarshal data.Body]⟩
    | (sList, none) => ⟨sList, none, [Step.Get req, Step.Unmarshal data.Body]⟩

/-- Method `ExchangeTradingHours` - stock market trading hours. -/
def Stock.ExchangeTradingHours {α : Type} (s : Stock) (Get : Transport)
    (Unmarshal : Decoder (Option α))
    :
    Outcome α :=
  let req : Request := ⟨s.url ++ urlAPIStockMarketHours, [("apikey", s.apiKey)]⟩
  match Get req with
  | .error err => ⟨none, some err, [Step.Get req]⟩
  | .ok data =>
    match Unmarshal data.Body none with
    | (_, some err) => ⟨none, some err, [Step.Get req, Step.Unmarshal data.Body]⟩
    | (eList, none) => ⟨eList, none, [Step.Get req, Step.Unmarshal data.Body]⟩

/-- Method `Actives` - stock market top active. -/
def Stock.Actives {α : Type} (s : Stock) (Get : Transport) (Unmarshal : Decoder (Option α)) :
    Outcome α :=
  let req : Request := ⟨s.url ++ urlAPIStockActives, [("apikey", s.apiKey)]⟩
  match Get req with
  | .error err => ⟨none, some err, [Step.Get req]⟩
  | .ok data =>
    match Unmarshal data.Body none with
    | (_, some err) => ⟨none, some err, [Step.Get req, Step.Unmarshal data.Body]⟩
    | (aList, none) => ⟨aList, none, [Step.Get req, Step.Unmarshal data.Body]⟩

/-- Method `Losers` - stock market top losers. -/
def Stock.Losers {α : Type} (s : Stock) (Get : Transport) (Unmarshal : Decoder (Option α)) :
    Outcome α :=
  let req : Request := ⟨s.url ++ urlAPIStockLosers, [("apikey", s.apiKey)]⟩
  match Get req with
  | .error err => ⟨none, some err, [Step.Get req]⟩
  | .ok data =>
    match Unmarshal data.Body none with
    | (_, some err) => ⟨none, some err, [Step.Get req, Step.Unmarshal data.Body]⟩
    | (lList, none) => ⟨lList, none, [Step.Get req, Step.Unmarshal data.Body]⟩

/-- Method `Gainers` - stock market top gainers. -/
def Stock.Gainers {α : Type} (s : Stock) (Get : Transport) (Unmarshal : Decoder (Option α)) :
    Outcome α :=
  let req : Request := ⟨s.url ++ urlAPIStockGainers, [("apikey", s.apiKey)]⟩
  match Get req with
  | .error err => ⟨none, some err, [Step.Get req]⟩
  | .ok data =>
    match Unmarshal data.Body none with
    | (_, some err) => ⟨none, some err, [Step.Get req, Step.Unmarshal data.Body]⟩
    | (gList, none) => ⟨gList, none, [Step.Get req, Step.Unmarshal data.Body]⟩

/-- Method `SectorPerformance` - stock market sector performance. -/
def Stock.SectorPerformance {α : Type} (s : Stock) (Get : Transport)
    (Unmarshal : Decoder (Option α))
    :
    Outcome α :=
  let req : Request := ⟨s.url ++ urlAPIStockSectorsPerformance, [("apikey", s.apiKey)]⟩
  match Get req with
  | .error err => ⟨none, some err, [Step.Get req]⟩
  | .ok data =>
    match Unmarshal data.Body none with
    | (_, some err) => ⟨none, some err, [Step.Get req, Step.Unmarshal data.Body]⟩
    | (eList, none) => ⟨eList, none, [Step.Get req, Step.Unmarshal data.Body]⟩

/-- Method `HistorySectorPerformance` - historical stock market sector performance. -/
def Stock.HistorySectorPerformance {α : Type} (s : Stock) (Get : Transport)
    (Unmarshal : Decoder (Option α))
    :
    Outcome α :=
  let req : Request := ⟨s.url ++ urlAPIStockHistorySectorsPerformance, [("apikey", s.apiKey)]⟩
  match Get req with
  | .error err => ⟨none, some err, [Step.Get req]⟩
  | .ok data =>
    match Unmarshal data.Body none with
    | (_, some err) => ⟨none, some err, [Step.Get req, Step.Unmarshal data.Body]⟩
    | (eList, none) => ⟨eList, none, [Step.Get req, Step.Unmarshal data.Body]⟩

/-! ## The methods of `Stock`, as one family -/

/-- A call of a method of `Stock`, with its arguments. -/
inductive Call (ι : Type) where
  | QuoteShort (symbol : String)
  | Quote (symbol : String)
  | BatchQuote (symbolList : List String)
  | QuoteByExchange (exchange : String)
  | Search (req : RequestStockSearch)
  | SearchTiker (req : RequestStockSearch)
  | CompanyProfile (symbol : String)
  | CompanyExecutive (symbol : String)
  | Candles (req : RequestStockCandleList)
  | DailyLine (symbol : String) (serieType : String)
  | DailyChangeAndVolume (symbol : String)
  | DailySpecificPeriod (symbol : String) (from_ to_ : Time)
  | DailyLastNDays (symbol : String) (days : Int)
  | DailyBatch (symbolList : List String) (from_ to_ : Option Time)
  | Dividends (symbol : String)
  | Splits (symbol : String)
  | AvalibleSymbolsByExchange (exchange : String)
  | AvalibleSymbols
  | IndexConstituentList (index : ι)
  | HistoryIndexConstituentList (index : ι)
  | EODCandleList (date : Time)
  | BatchEODCandleList (symbolList : List String) (date : Time)
  | ExchangeTradingHours
  | Actives
  | Losers
  | Gainers
  | SectorPerformance
  | HistorySectorPerformance

/-- What the methods of a client share: the base URL and API key, the resty client, the JSON
decoder at the result shapes and at the wrapper of `DailyBatch`, and the index selectors. -/
structure Client (α ι : Type) where
  stock : Stock
  Get : Transport
  Unmarshal : Decoder (Option α)
  UnmarshalBatch : Decoder (StockBatchDaily α)
  objects : IndexSelectors ι

/-- Run a call: the method named by the call, on its arguments. -/
def Client.run {α ι : Type} [DecidableEq ι] (c : Client α ι) : Call ι → Outcome α
  | .QuoteShort symbol => c.stock.QuoteShort c.Get c.Unmarshal symbol
  | .Quote symbol => c.stock.Quote c.Get c.Unmarshal symbol
  | .BatchQuote symbolList => c.stock.BatchQuote c.Get c.Unmarshal symbolList
  | .QuoteByExchange exchange => c.stock.QuoteByExchange c.Get c.Unmarshal exchange
  | .Search req => c.stock.Search c.Get c.Unmarshal req
  | .SearchTiker req => c.stock.SearchTiker c.Get c.Unmarshal req
  | .CompanyProfile symbol => c.stock.CompanyProfile c.Get c.Unmarshal symbol
  | .CompanyExecutive symbol => c.stock.CompanyExecutive c.Get c.Unmarshal symbol
  | .Candles req => c.stock.Candles c.Get c.Unmarshal req
  | .DailyLine symbol serieType => c.stock.DailyLine c.Get c.Unmarshal symbol serieType
  | .DailyChangeAndVolume symbol => c.stock.DailyChangeAndVolume c.Get c.Unmarshal symbol
  | .DailySpecificPeriod symbol f t => c.stock.DailySpecificPeriod c.Get c.Unmarshal symbol f t
  | .DailyLastNDays symbol days => c.stock.DailyLastNDays c.Get c.Unmarshal symbol days
  | .DailyBatch symbolList f t => c.stock.DailyBatch c.Get c.UnmarshalBatch symbolList f t
  | .Dividends symbol => c.stock.Dividends c.Get c.Unmarshal symbol
  | .Splits symbol => c.stock.Splits c.Get c.Unmarshal symbol
  | .AvalibleSymbolsByExchange exchange =>
    c.stock.AvalibleSymbolsByExchange c.Get c.Unmarshal exchange
  | .AvalibleSymbols => c.stock.AvalibleSymbols c.Get c.Unmarshal
  | .IndexConstituentList index => c.stock.IndexConstituentList c.Get c.Unmarshal c.objects index
  | .HistoryIndexConstituentList index =>
    c.stock.HistoryIndexConstituentList c.Get c.Unmarshal c.objects index
  | .EODCandleList date => c.stock.EODCandleList c.Get c.Unmarshal date
  | .BatchEODCandleList symbolList date =>
    c.stock.BatchEODCandleList c.Get c.Unmarshal symbolList date
  | .ExchangeTradingHours => c.stock.ExchangeTradingHours c.Get c.Unmarshal
  | .Actives => c.stock.Actives c.Get c.Unmarshal
  | .Losers => c.stock.Losers c.Get c.Unmarshal
  | .Gainers => c.stock.Gainers c.Get c.Unmarshal
  | .SectorPerformance => c.stock.SectorPerformance c.Get c.Unmarshal
  | .HistorySectorPerformance => c.stock.HistorySectorPerformance c.Get c.Unmarshal

/-! ## Concrete clients -/

/-- A client configuration. -/
def demoStock : Stock := ⟨"https://fmpcloud.io/api/v3", "demo"⟩

/-- Index selectors as three distinct strings. -/
def demoSelectors : IndexSelectors String := ⟨"sp500", "dowjones", "nasdaq100"⟩

/-- A transport on which every GET fails. -/
def refusing : Transport := fun _ => .error ⟨"connection refused"⟩

/-- A transport on which every GET succeeds with the given status and body. -/
def responding (status : Int) (body : String) : Transport := fun _ => .ok ⟨status, body⟩

/-- A decoder stub at lists of symbols: the body of an empty array decodes to the empty list, any
other body fails after one element has been stored in the target. -/
def stubUnmarshal : Decoder (Option (List String)) := fun body _ =>
  if body = "[]" then (some [], none)
  else (some ["AAPL"], some ⟨"unexpected end of JSON input"⟩)

/-- The decoder stub at the wrapper of `DailyBatch`. -/
def stubUnmarshalBatch : Decoder (StockBatchDaily (List String)) := fun body _ =>
  if body = "[]" then (⟨some []⟩, none)
  else (⟨some ["AAPL"]⟩, some ⟨"unexpected end of JSON input"⟩)

/-- A client over the stubs. -/
def demoClient (Get : Transport) : Client (List String) String :=
  ⟨demoStock, Get, stubUnmarshal, stubUnmarshalBatch, demoSelectors⟩

/-! ## Derived forms

The definitions of this section are not functions of `stock.go`.  They name the request each call
hands to the transport and the three cycles the methods repeat around it: GET and decode (all
but two), GET, status check and decode (`CompanyProfile`), GET and decode into the wrapper
(`DailyBatch`).  `Client.run_eq_cycleOf` proves them equal to the methods. -/

/-- GET, then decode into the nil result. -/
def roundTrip {α : Type} (Get : Transport) (Unmarshal : Decoder (Option α)) (req : Request) :
    Outcome α :=
  match Get req with
  | .error err => ⟨none, some err, [Step.Get req]⟩
  | .ok data =>
    match Unmarshal data.Body none with
    | (_, some err) => ⟨none, some err, [Step.Get req, Step.Unmarshal data.Body]⟩
    | (v, none) => ⟨v, none, [Step.Get req, Step.Unmarshal data.Body]⟩

/-- GET, then the status check, then decode into the nil result. -/
def roundTripChecked {α : Type} (Get : Transport) (Unmarshal : Decoder (Option α))
    (req : Request) : Outcome α :=
  match Get req with
  | .error err => ⟨none, some err, [Step.Get req]⟩
  | .ok data =>
    if data.StatusCode ≠ StatusOK then
      ⟨none, some (errorsNew data.Body), [Step.Get req, Step.StatusCode]⟩
    else
      match Unmarshal data.Body none with
      | (_, some err) =>
        ⟨none, some err, [Step.Get req, Step.StatusCode, Step.Unmarshal data.Body]⟩
      | (v, none) => ⟨v, none, [Step.Get req, Step.StatusCode, Step.Unmarshal data.Body]⟩

/-- GET, then decode into the zero wrapper and return its `Data`. -/
def roundTripBatch {α : Type} (Get : Transport) (Unmarshal : Decoder (StockBatchDaily α))
    (req : Request) : Outcome α :=
  match Get req with
  | .error err => ⟨none, some err, [Step.Get req]⟩
  | .ok data =>
    match Unmarshal data.Body ⟨none⟩ with
    | (_, some err) => ⟨none, some err, [Step.Get req, Step.Unmarshal data.Body]⟩
    | (resp, none) => ⟨resp.Data, none, [Step.Get req, Step.Unmarshal data.Body]⟩

/-- The query parameters of a method with optional bounds (`Candles`, `DailyBatch`). -/
def rangeParams (apiKey : String) (from_ to_ : Option Time) : Params :=
  let reqParam : Params := [("apikey", apiKey)]
  let reqParam : Params :=
    match from_ with
    | some t => reqParam.set "from" t.Format
    | none => reqParam
  match to_ with
  | some t => reqParam.set "to" t.Format
  | none => reqParam

/-- The query parameters of the two search methods. -/
def searchParams (apiKey : String) (req : RequestStockSearch) : Params :=
  let reqParam : Params := [("apikey", apiKey), ("limit", Sprint req.Limit), ("query", req.Query)]
  match req.Exchange with
  | some exchange => reqParam.set "exchange" exchange
  | none => reqParam

/-- The URL of the index methods: the `switch` over the three selectors. -/
def indexURL {ι : Type} [DecidableEq ι] (url : String) (objects : IndexSelectors ι) (index : ι)
    (sp500 dowJones nasdaq : String) : String :=
  if index = objects.IndexSP500 then url ++ sp500
  else if index = objects.IndexDowJones then url ++ dowJones
  else if index = objects.IndexNasdaq100 then url ++ nasdaq
  else url

/-- The request each call hands to the resty client. -/
def Client.requestOf {α ι : Type} [DecidableEq ι] (c : Client α ι) : Call ι → Request
  | .QuoteShort symbol =>
    ⟨c.stock.url ++ Sprintf urlAPIStockQuoteShot [symbol], [("apikey", c.stock.apiKey)]⟩
  | .Quote symbol =>
    ⟨c.stock.url ++ Sprintf urlAPIStockQuote [symbol], [("apikey", c.stock.apiKey)]⟩
  | .BatchQuote symbolList =>
    ⟨c.stock.url ++ Sprintf urlAPIStockQuote [Join symbolList ","], [("apikey", c.stock.apiKey)]⟩
  | .QuoteByExchange exchange =>
    ⟨c.stock.url ++ Sprintf urlAPIStockQuotes [exchange], [("apikey", c.stock.apiKey)]⟩
  | .Search req => ⟨c.stock.url ++ urlAPIStockSearch, searchParams c.stock.apiKey req⟩
  | .SearchTiker req => ⟨c.stock.url ++ urlAPIStockSearchTicker, searchParams c.stock.apiKey req⟩
  | .CompanyProfile symbol =>
    ⟨c.stock.url ++ Sprintf urlAPIStockCompanyProfile [symbol], [("apikey", c.stock.apiKey)]⟩
  | .CompanyExecutive symbol =>
    ⟨c.stock.url ++ Sprintf urlAPIStockCompanyExecutives [symbol], [("apikey", c.stock.apiKey)]⟩
  | .Candles req =>
    ⟨c.stock.url ++ Sprintf urlAPIStockCandles [req.Period, req.Symbol],
      rangeParams c.stock.apiKey req.From req.To⟩
  | .DailyLine symbol serieType =>
    ⟨c.stock.url ++ Sprintf urlAPIStockDaily [symbol],
      [("apikey", c.stock.apiKey), ("serietype", serieType)]⟩
  | .DailyChangeAndVolume symbol =>
    ⟨c.stock.url ++ Sprintf urlAPIStockDaily [symbol], [("apikey", c.stock.apiKey)]⟩
  | .DailySpecificPeriod symbol f t =>
    ⟨c.stock.url ++ Sprintf urlAPIStockDaily [symbol],
      [("apikey", c.stock.apiKey), ("from", f.Format), ("to", t.Format)]⟩
  | .DailyLastNDays symbol days =>
    ⟨c.stock.url ++ Sprintf urlAPIStockDaily [symbol],
      [("apikey", c.stock.apiKey), ("timeseries", Sprint days)]⟩
  | .DailyBatch symbolList f t =>
    ⟨c.stock.url ++ Sprintf urlAPIStockDaily [Join symbolList ","], rangeParams c.stock.apiKey f t⟩
  | .Dividends symbol =>
    ⟨c.stock.url ++ Sprintf urlAPIStockDividends [symbol], [("apikey", c.stock.apiKey)]⟩
  | .Splits symbol =>
    ⟨c.stock.url ++ Sprintf urlAPIStockSplits [symbol], [("apikey", c.stock.apiKey)]⟩
  | .AvalibleSymbolsByExchange exchange =>
    ⟨c.stock.url ++ Sprintf urlAPIStockSymbolByExchangeList [exchange],
      [("apikey", c.stock.apiKey)]⟩
  | .AvalibleSymbols => ⟨c.stock.url ++ urlAPIStockSymbolList, [("apikey", c.stock.apiKey)]⟩
  | .IndexConstituentList index =>
    ⟨indexURL c.stock.url c.objects index urlAPIStockSP500List urlAPIStockDowJonesList
      urlAPIStockNasdaqList, [("apikey", c.stock.apiKey)]⟩
  | .HistoryIndexConstituentList index =>
    ⟨indexURL c.stock.url c.objects index urlAPIStockHistorySP500List
      urlAPIStockHistoryDowJonesList urlAPIStockHistoryNasdaqList, [("apikey", c.stock.apiKey)]⟩
  | .EODCandleList date =>
    ⟨c.stock.url ++ urlAPIStockEODCandles, [("apikey", c.stock.apiKey), ("date", date.Format)]⟩
  | .BatchEODCandleList symbolList date =>
    ⟨c.stock.url ++ Sprintf urlAPIStockEODBatchCandles [Join symbolList ","],
      [("apikey", c.stock.apiKey), ("date", date.Format)]⟩
  | .ExchangeTradingHours => ⟨c.stock.url ++ urlAPIStockMarketHours, [("apikey", c.stock.apiKey)]⟩
  | .Actives => ⟨c.stock.url ++ urlAPIStockActives, [("apikey", c.stock.apiKey)]⟩
  | .Losers => ⟨c.stock.url ++ urlAPIStockLosers, [("apikey", c.stock.apiKey)]⟩
  | .Gainers => ⟨c.stock.url ++ urlAPIStockGainers, [("apikey", c.stock.apiKey)]⟩
  | .SectorPerformance =>
    ⟨c.stock.url ++ urlAPIStockSectorsPerformance, [("apikey", c.stock.apiKey)]⟩
  | .HistorySectorPerformance =>
    ⟨c.stock.url ++ urlAPIStockHistorySectorsPerformance, [("apikey", c.stock.apiKey)]⟩

/-- The cycle each call runs around its request. -/
def Client.cycleOf {α ι : Type} [DecidableEq ι] (c : Client α ι) (call : Call ι) : Outcome α :=
  match call with
  | .CompanyProfile _ => roundTripChecked c.Get c.Unmarshal (c.requestOf call)
  | .DailyBatch _ _ _ => roundTripBatch c.Get c.UnmarshalBatch (c.requestOf call)
  | _ => roundTrip c.Get c.Unmarshal (c.requestOf call)

/-- The decode step of a call on a body: the target after `json.Unmarshal` as the method would
return it, and the error of `json.Unmarshal`. -/
def Client.decode {α ι : Type} (c : Client α ι) (call : Call ι) (body : String) :
    Option α × Option GoError :=
  match call with
  | .DailyBatch _ _ _ => ((c.UnmarshalBatch body ⟨none⟩).1.Data, (c.UnmarshalBatch body ⟨none⟩).2)
  | _ => c.Unmarshal body none

/-- Method `IsSuccess` of `*resty.Response`: the status code is in the 2xx class. -/
def Response.IsSuccess (r : Response) : Bool := decide (r.StatusCode > 199 ∧ r.StatusCode < 300)

/-- The call is a call of `CompanyProfile`. -/
def Call.isCompanyProfile {ι : Type} : Call ι → Bool
  | .CompanyProfile _ => true
  | _ => false

/-- The client with another transport. -/
def Client.withGet {α ι : Type} (c : Client α ι) (G : Transport) : Client α ι :=
  ⟨c.stock, G, c.Unmarshal, c.UnmarshalBatch, c.objects⟩

/-! ## Lemmas on the cycles -/

theorem Client.run_eq_cycleOf {α ι : Type} [DecidableEq ι] (c : Client α ι) (call : Call ι) :
    c.run call = c.cycleOf call := by
  cases call <;> rfl

theorem roundTrip_requests {α : Type} (Get : Transport) (U : Decoder (Option α)) (req : Request) :
    (roundTrip Get U req).requests = [req] := by
  unfold roundTrip
  split
  · rfl
  · split <;> rfl

theorem roundTripChecked_requests {α : Type} (Get : Transport) (U : Decoder (Option α))
    (req : Request) : (roundTripChecked Get U req).requests = [req] := by
  unfold roundTripChecked
  split
  · rfl
  · split
    · rfl
    · split <;> rfl

theorem roundTripBatch_requests {α : Type} (Get : Transport) (U : Decoder (StockBatchDaily α))
    (req : Request) : (roundTripBatch Get U req).requests = [req] := by
  unfold roundTripBatch
  split
  · rfl
  · split <;> rfl

theorem Client.run_requests {α ι : Type} [DecidableEq ι] (c : Client α ι) (call : Call ι) :
    (c.run call).requests = [c.requestOf call] := by
  rw [Client.run_eq_cycleOf]
  cases call <;>
    first
    | exact roundTrip_requests _ _ _
    | exact roundTripChecked_requests _ _ _
    | exact roundTripBatch_requests _ _ _

theorem Client.requestOf_Get {α ι : Type} [DecidableEq ι] (c : Client α ι) (G : Transport)
    (call : Call ι) :
    (c.withGet G).requestOf call = c.requestOf call := by
  cases call <;> rfl

theorem Client.decode_Get {α ι : Type} (c : Client α ι) (G : Transport)
    (call : Call ι) (body : String) :
    (c.withGet G).decode call body = c.decode call body := by
  cases call <;> rfl

theorem Client.mem_requests {α ι : Type} [DecidableEq ι] (c : Client α ι) (call : Call ι)
    (r : Request) (h : r ∈ (c.run call).requests) : r = c.requestOf call := by
  rw [Client.run_requests] at h
  simpa using h

/-- The outcome of a cycle whose GET failed. -/
theorem Client.cycleOf_error {α ι : Type} [DecidableEq ι] (c : Client α ι) (call : Call ι)
    (err : GoError) (h : c.Get (c.requestOf call) = .error err) :
    c.cycleOf call = ⟨none, some err, [Step.Get (c.requestOf call)]⟩ := by
  cases call <;> simp only [Client.cycleOf, roundTrip, roundTripChecked, roundTripBatch, h]

/-- The outcome of a cycle without status check whose GET succeeded: the decode of the body. -/
theorem Client.cycleOf_ok {α ι : Type} [DecidableEq ι] (c : Client α ι) (call : Call ι)
    (data : Response) (hcall : call.isCompanyProfile = false)
    (h : c.Get (c.requestOf call) = .ok data) :
    c.cycleOf call =
      match c.decode call data.Body with
      | (_, some err) =>
        ⟨none, some err, [Step.Get (c.requestOf call), Step.Unmarshal data.Body]⟩
      | (v, none) => ⟨v, none, [Step.Get (c.requestOf call), Step.Unmarshal data.Body]⟩ := by
  cases call
  case CompanyProfile => simp [Call.isCompanyProfile] at hcall
  all_goals
    first
    | (simp only [Client.cycleOf, roundTrip, roundTripBatch, h, Client.decode]; done)
    | (simp only [Client.cycleOf, roundTrip, roundTripBatch, h, Client.decode]
       split <;> simp_all)

/-- The outcome of `CompanyProfile` when its GET succeeded. -/
theorem Client.cycleOf_checked {α ι : Type} [DecidableEq ι] (c : Client α ι) (symbol : String)
    (data : Response) (h : c.Get (c.requestOf (.CompanyProfile symbol)) = .ok data) :
    c.cycleOf (.CompanyProfile symbol) =
      if data.StatusCode ≠ StatusOK then
        ⟨none, some (errorsNew data.Body),
          [Step.Get (c.requestOf (.CompanyProfile symbol)), Step.StatusCode]⟩
      else
        match c.Unmarshal data.Body none with
        | (_, some err) =>
          ⟨none, some err, [Step.Get (c.requestOf (.CompanyProfile symbol)), Step.StatusCode,
            Step.Unmarshal data.Body]⟩
        | (v, none) =>
          ⟨v, none, [Step.Get (c.requestOf (.CompanyProfile symbol)), Step.StatusCode,
            Step.Unmarshal data.Body]⟩ := by
  simp only [Client.cycleOf, roundTripChecked, h]

/-! ## Requests -/

theorem rangeParams_spec (k : String) (f t : Option Time) :
    (rangeParams k f t).get? "from" = f.map Time.Format ∧
    (rangeParams k f t).get? "to" = t.map Time.Format ∧
    (rangeParams k f t).get? "apikey" = some k ∧
    (f = none → t = none → rangeParams k f t = [("apikey", k)]) := by
  cases f <;> cases t <;> simp [rangeParams, Params.set, Params.get?]

theorem searchParams_spec (k : String) (req : RequestStockSearch) :
    (searchParams k req).get? "apikey" = some k ∧
    (searchParams k req).get? "limit" = some (Sprint req.Limit) ∧
    (searchParams k req).get? "query" = some req.Query ∧
    (searchParams k req).get? "exchange" = req.Exchange := by
  obtain ⟨q, l, e⟩ := req
  cases e <;> simp [searchParams, Params.set, Params.get?]

theorem Client.requestOf_apikey {α ι : Type} [DecidableEq ι] (c : Client α ι) (call : Call ι) :
    (c.requestOf call).QueryParams.get? "apikey" = some c.stock.apiKey := by
  cases call <;>
    first
    | rfl
    | exact (rangeParams_spec _ _ _).2.2.1
    | exact (searchParams_spec _ _).1

theorem indexURL_base {ι : Type} [DecidableEq ι] (url : String) (objects : IndexSelectors ι)
    (index : ι) (a b d : String) : ∃ path, indexURL url objects index a b d = url ++ path := by
  unfold indexURL
  split_ifs
  · exact ⟨a, rfl⟩
  · exact ⟨b, rfl⟩
  · exact ⟨d, rfl⟩
  · exact ⟨"", by simp⟩

theorem Client.requestOf_url {α ι : Type} [DecidableEq ι] (c : Client α ι) (call : Call ι) :
    ∃ path, (c.requestOf call).url = c.stock.url ++ path := by
  cases call
  case IndexConstituentList index => exact indexURL_base _ _ _ _ _ _
  case HistoryIndexConstituentList index => exact indexURL_base _ _ _ _ _ _
  all_goals exact ⟨_, rfl⟩

/-! ## Claims on the request/decode cycle -/

/-- C6: every request carries the API key as the query parameter named apikey: for every call
of a method of Stock, on every input, exactly one request is handed to the transport; its query
parameters map apikey to the configured API key, and its URL is the configured base URL followed
by a path. -/
theorem every_request_carries_apikey {α ι : Type} [DecidableEq ι] (c : Client α ι)
    (call : Call ι) :
    ∃ r path, (c.run call).requests = [r] ∧
      r.QueryParams.get? "apikey" = some c.stock.apiKey ∧
      r.url = c.stock.url ++ path := by
  obtain ⟨path, hpath⟩ := c.requestOf_url call
  exact ⟨c.requestOf call, path, c.run_requests call, c.requestOf_apikey call, hpath⟩

/-- C8: a transport-level failure surfaces as an error with no decoded result: for every call,
if the GET of the request the call issues returns an error, the method returns a nil result and
exactly that error, and the GET is the only external call performed (no status check and no JSON
decode step). -/
theorem transport_failure_surfaces {α ι : Type} [DecidableEq ι] (c : Client α ι) (call : Call ι)
    (r : Request) (err : GoError) (hr : r ∈ (c.run call).requests)
    (hget : c.Get r = .error err) :
    (c.run call).result = none ∧ (c.run call).err = some err ∧
      (c.run call).steps = [Step.Get r] := by
  have e := c.mem_requests call r hr
  subst e
  rw [Client.run_eq_cycleOf, c.cycleOf_error call err hget]
  exact ⟨rfl, rfl, rfl⟩

/-- Witness of C8: CompanyProfile on a transport that refuses the connection. -/
theorem transport_failure_surfaces_witness :
    ((demoClient refusing).run (.CompanyProfile "AAPL")).result = none ∧
    ((demoClient refusing).run (.CompanyProfile "AAPL")).err = some ⟨"connection refused"⟩ ∧
    ((demoClient refusing).run (.CompanyProfile "AAPL")).steps =
      [Step.Get ⟨"https://fmpcloud.io/api/v3/profile/AAPL", [("apikey", "demo")]⟩] :=
  transport_failure_surfaces (demoClient refusing) (.CompanyProfile "AAPL")
    ⟨"https://fmpcloud.io/api/v3/profile/AAPL", [("apikey", "demo")]⟩ ⟨"connection refused"⟩
    (by decide) rfl

/-- C7: a response body that fails to decode surfaces as the decode error, never as a partial or
silently empty result: for every call, whenever the decode step of the call is performed on a
body and the decoder fails on it, the method returns that decode error and a nil result, whatever
the decoder had stored in the target before failing; this includes DailyBatch, whose target is
the wrapper. -/
theorem decode_failure_surfaces {α ι : Type} [DecidableEq ι] (c : Client α ι) (call : Call ι)
    (body : String) (err : GoError) (hstep : Step.Unmarshal body ∈ (c.run call).steps)
    (hdec : (c.decode call body).2 = some err) :
    (c.run call).result = none ∧ (c.run call).err = some err := by
  rw [Client.run_eq_cycleOf] at hstep ⊢
  cases hget : c.Get (c.requestOf call) with
  | error e =>
    rw [c.cycleOf_error call e hget] at hstep
    simp at hstep
  | ok data =>
    cases hcp : call.isCompanyProfile with
    | false =>
      rw [c.cycleOf_ok call data hcp hget] at hstep ⊢
      have hb : body = data.Body := by
        split at hstep <;> simpa using hstep
      subst hb
      split
      · next v e he => rw [he] at hdec; simp at hdec; subst hdec; exact ⟨rfl, rfl⟩
      · next v he => rw [he] at hdec; simp at hdec
    | true =>
      cases call <;> simp [Call.isCompanyProfile] at hcp
      rename_i symbol
      rw [c.cycleOf_checked symbol data hget] at hstep ⊢
      split at hstep
      · simp at hstep
      · next hst =>
        have hb : body = data.Body := by
          split at hstep <;> simpa using hstep
        subst hb
        simp only [Client.decode] at hdec
        rw [if_neg hst]
        split
        · next v e he => rw [he] at hdec; simp at hdec; subst hdec; exact ⟨rfl, rfl⟩
        · next v he => rw [he] at hdec; simp at hdec

/-- Witness of C7: DailyBatch on a truncated body; the stub decoder has stored one element in the
wrapper before failing. -/
theorem decode_failure_surfaces_witness :
    ((demoClient (responding 200 "[")).decode (.DailyBatch ["AAPL", "MSFT"] none none) "[").1
      = some ["AAPL"] ∧
    ((demoClient (responding 200 "[")).run (.DailyBatch ["AAPL", "MSFT"] none none)).result
      = none ∧
    ((demoClient (responding 200 "[")).run (.DailyBatch ["AAPL", "MSFT"] none none)).err
      = some ⟨"unexpected end of JSON input"⟩ :=
  ⟨by decide,
    decode_failure_surfaces (demoClient (responding 200 "["))
      (.DailyBatch ["AAPL", "MSFT"] none none)
      "[" ⟨"unexpected end of JSON input"⟩ (by decide) (by decide)⟩

theorem Call.isCompanyProfile_eq_false {ι : Type} (call : Call ι)
    (h : ∀ symbol, call ≠ .CompanyProfile symbol) : call.isCompanyProfile = false := by
  cases call <;> first | rfl | exact absurd rfl (h _)

/-- C10: every method other than CompanyProfile skips the status check: for every call of such
a method and any two transport-successful responses to its request with the same body (whatever
their status codes), the method returns the same outcome, performing only the GET and the decode
step, and the outcome is the decode of the body: the decode error with a nil result when the
decoder fails, the decoded value with a nil error when it succeeds. -/
theorem status_is_ignored {α ι : Type} [DecidableEq ι] (c : Client α ι) (Get2 : Transport)
    (call : Call ι) (r : Request) (body : String) (status1 status2 : Int)
    (hcall : ∀ symbol, call ≠ .CompanyProfile symbol)
    (hr : r ∈ (c.run call).requests)
    (h1 : c.Get r = .ok ⟨status1, body⟩) (h2 : Get2 r = .ok ⟨status2, body⟩) :
    (c.withGet Get2).run call = c.run call ∧
    (c.run call).steps = [Step.Get r, Step.Unmarshal body] ∧
    (∀ e, (c.decode call body).2 = some e →
      (c.run call).result = none ∧ (c.run call).err = some e) ∧
    ((c.decode call body).2 = none →
      (c.run call).result = (c.decode call body).1 ∧ (c.run call).err = none) := by
  have e := c.mem_requests call r hr
  subst e
  have hcp := call.isCompanyProfile_eq_false hcall
  have h2' : (c.withGet Get2).Get ((c.withGet Get2).requestOf call)
      = .ok ⟨status2, body⟩ := by
    rw [Client.requestOf_Get]; exact h2
  rw [Client.run_eq_cycleOf, Client.run_eq_cycleOf, c.cycleOf_ok call _ hcp h1,
    Client.cycleOf_ok _ call _ hcp h2', Client.requestOf_Get, Client.decode_Get]
  refine ⟨rfl, ?_, ?_, ?_⟩
  · split <;> rfl
  · intro e he
    split
    · next v e2 h => rw [h] at he; simp at he; subst he; exact ⟨rfl, rfl⟩
    · next v h => rw [h] at he; simp at he
  · intro he
    split
    · next v e2 h => rw [h] at he; simp at he
    · next v h => rw [h]; exact ⟨rfl, rfl⟩

/-- Witness of C10: Quote answered with status 500 and with status 200, both with the body of an
empty array, which the stub decoder parses: an empty result and no error, both times. -/
theorem status_is_ignored_witness :
    ((demoClient (responding 500 "[]")).withGet (responding 200 "[]")).run (.Quote "AAPL")
      = (demoClient (responding 500 "[]")).run (.Quote "AAPL") ∧
    ((demoClient (responding 500 "[]")).run (.Quote "AAPL")).result = some [] ∧
    ((demoClient (responding 500 "[]")).run (.Quote "AAPL")).err = none :=
  have h := status_is_ignored (demoClient (responding 500 "[]")) (responding 200 "[]")
    (.Quote "AAPL") ⟨"https://fmpcloud.io/api/v3/quote/AAPL", [("apikey", "demo")]⟩ "[]" 500 200
    (by intro symbol; exact Call.noConfusion) (by decide) rfl rfl
  ⟨h.1, h.2.2.2 rfl⟩

/-- Counterexample to C9: a response with status 201, a success status (resty IsSuccess holds),
whose body the decoder parses: CompanyProfile does not decode it and returns the body text as
an error. -/
theorem company_profile_rejects_success_status_201 :
    Response.IsSuccess ⟨201, "[]"⟩ = true ∧
    stubUnmarshal "[]" none = (some [], none) ∧
    ((demoClient (responding 201 "[]")).run (.CompanyProfile "AAPL")).result = none ∧
    ((demoClient (responding 201 "[]")).run (.CompanyProfile "AAPL")).err = some ⟨"[]"⟩ ∧
    ((demoClient (responding 201 "[]")).run (.CompanyProfile "AAPL")).steps =
      [Step.Get ⟨"https://fmpcloud.io/api/v3/profile/AAPL", [("apikey", "demo")]⟩,
        Step.StatusCode] := by
  decide

/-- C9, amended: CompanyProfile checks the status explicitly against 200 OK: for every
transport-successful response whose status is not 200 (other 2xx statuses included), it returns
a nil result and an error whose message is the response body text, without decoding the body;
for every response with status 200 it returns the outcome of decoding the body. -/
theorem company_profile_status_check {α ι : Type} [DecidableEq ι] (c : Client α ι)
    (symbol : String) (r : Request) (data : Response)
    (hr : r ∈ (c.run (.CompanyProfile symbol)).requests) (hget : c.Get r = .ok data) :
    (data.StatusCode ≠ StatusOK →
      (c.run (.CompanyProfile symbol)).result = none ∧
      (c.run (.CompanyProfile symbol)).err = some ⟨data.Body⟩ ∧
      (c.run (.CompanyProfile symbol)).steps = [Step.Get r, Step.StatusCode]) ∧
    (data.StatusCode = StatusOK →
      (c.run (.CompanyProfile symbol)).steps =
        [Step.Get r, Step.StatusCode, Step.Unmarshal data.Body] ∧
      (∀ e, (c.Unmarshal data.Body none).2 = some e →
        (c.run (.CompanyProfile symbol)).result = none ∧
        (c.run (.CompanyProfile symbol)).err = some e) ∧
      ((c.Unmarshal data.Body none).2 = none →
        (c.run (.CompanyProfile symbol)).result = (c.Unmarshal data.Body none).1 ∧
        (c.run (.CompanyProfile symbol)).err = none)) := by
  have e := c.mem_requests _ r hr
  subst e
  rw [Client.run_eq_cycleOf, c.cycleOf_checked symbol data hget]
  constructor
  · intro hst
    rw [if_pos hst]
    exact ⟨rfl, rfl, rfl⟩
  · intro hst
    rw [if_neg (not_not.mpr hst)]
    refine ⟨?_, ?_, ?_⟩
    · split <;> rfl
    · intro e he
      split
      · next v e2 h => rw [h] at he; simp at he; subst he; exact ⟨rfl, rfl⟩
      · next v h => rw [h] at he; simp at he
    · intro he
      split
      · next v e2 h => rw [h] at he; simp at he
      · next v h => rw [h]; exact ⟨rfl, rfl⟩

/-- Witness of C9, amended: status 404 with a body that would parse, and status 200. -/
theorem company_profile_status_check_witness :
    (((demoClient (responding 404 "[]")).run (.CompanyProfile "AAPL")).result = none ∧
      ((demoClient (responding 404 "[]")).run (.CompanyProfile "AAPL")).err = some ⟨"[]"⟩ ∧
      ((demoClient (responding 404 "[]")).run (.CompanyProfile "AAPL")).steps =
        [Step.Get ⟨"https://fmpcloud.io/api/v3/profile/AAPL", [("apikey", "demo")]⟩,
          Step.StatusCode]) ∧
    (((demoClient (responding 200 "[]")).run (.CompanyProfile "AAPL")).result = some [] ∧
      ((demoClient (responding 200 "[]")).run (.CompanyProfile "AAPL")).err = none) :=
  ⟨(company_profile_status_check (demoClient (responding 404 "[]")) "AAPL"
      ⟨"https://fmpcloud.io/api/v3/profile/AAPL", [("apikey", "demo")]⟩ ⟨404, "[]"⟩
      (by decide) rfl).1 (by decide),
    ((company_profile_status_check (demoClient (responding 200 "[]")) "AAPL"
      ⟨"https://fmpcloud.io/api/v3/profile/AAPL", [("apikey", "demo")]⟩ ⟨200, "[]"⟩
      (by decide) rfl).2 rfl).2.2 rfl⟩

/-! ## Index constituent lookups -/

theorem string_append_left_cancel (s a b : String) (h : s ++ a = s ++ b) : a = b := by
  apply String.ext
  have := congrArg String.data h
  simpa using this

theorem IndexConstituentList_requests {α ι : Type} [DecidableEq ι] (s : Stock) (Get : Transport)
    (U : Decoder (Option α)) (objects : IndexSelectors ι) (index : ι) :
    (s.IndexConstituentList Get U objects index).requests =
      [⟨indexURL s.url objects index urlAPIStockSP500List urlAPIStockDowJonesList
        urlAPIStockNasdaqList, [("apikey", s.apiKey)]⟩] :=
  Client.run_requests ⟨s, Get, U, fun _ t => (t, none), objects⟩ (.IndexConstituentList index)

theorem HistoryIndexConstituentList_requests {α ι : Type} [DecidableEq ι] (s : Stock)
    (Get : Transport) (U : Decoder (Option α)) (objects : IndexSelectors ι) (index : ι) :
    (s.HistoryIndexConstituentList Get U objects index).requests =
      [⟨indexURL s.url objects index urlAPIStockHistorySP500List urlAPIStockHistoryDowJonesList
        urlAPIStockHistoryNasdaqList, [("apikey", s.apiKey)]⟩] :=
  Client.run_requests ⟨s, Get, U, fun _ t => (t, none), objects⟩
    (.HistoryIndexConstituentList index)

/-- C4: each of the three index selectors routes to its own endpoint path: IndexConstituentList
requests the base URL followed by /sp500_constituent, /dowjones_constituent, /nasdaq_constituent
for SP500, DowJones, Nasdaq100, HistoryIndexConstituentList the base URL followed by
/historical/sp500_constituent, /historical/dowjones_constituent, /historical/nasdaq_constituent,
and the six URLs are pairwise distinct for any base URL.  The three selectors are distinct
constants. -/
theorem index_selectors_route_to_distinct_paths {α ι : Type} [DecidableEq ι] (s : Stock)
    (Get : Transport) (U : Decoder (Option α)) (objects : IndexSelectors ι)
    (h12 : objects.IndexSP500 ≠ objects.IndexDowJones)
    (h13 : objects.IndexSP500 ≠ objects.IndexNasdaq100)
    (h23 : objects.IndexDowJones ≠ objects.IndexNasdaq100) :
    (s.IndexConstituentList Get U objects objects.IndexSP500).requests =
      [⟨s.url ++ "/sp500_constituent", [("apikey", s.apiKey)]⟩] ∧
    (s.IndexConstituentList Get U objects objects.IndexDowJones).requests =
      [⟨s.url ++ "/dowjones_constituent", [("apikey", s.apiKey)]⟩] ∧
    (s.IndexConstituentList Get U objects objects.IndexNasdaq100).requests =
      [⟨s.url ++ "/nasdaq_constituent", [("apikey", s.apiKey)]⟩] ∧
    (s.HistoryIndexConstituentList Get U objects objects.IndexSP500).requests =
      [⟨s.url ++ "/historical/sp500_constituent", [("apikey", s.apiKey)]⟩] ∧
    (s.HistoryIndexConstituentList Get U objects objects.IndexDowJones).requests =
      [⟨s.url ++ "/historical/dowjones_constituent", [("apikey", s.apiKey)]⟩] ∧
    (s.HistoryIndexConstituentList Get U objects objects.IndexNasdaq100).requests =
      [⟨s.url ++ "/historical/nasdaq_constituent", [("apikey", s.apiKey)]⟩] ∧
    List.Pairwise (fun a b => a ≠ b)
      [s.url ++ "/sp500_constituent", s.url ++ "/dowjones_constituent",
        s.url ++ "/nasdaq_constituent", s.url ++ "/historical/sp500_constituent",
        s.url ++ "/historical/dowjones_constituent",
        s.url ++ "/historical/nasdaq_constituent"] := by
  have h21 := h12.symm
  have h31 := h13.symm
  have h32 := h23.symm
  refine ⟨?_, ?_, ?_, ?_, ?_, ?_, ?_⟩
  · rw [IndexConstituentList_requests]; simp [indexURL, urlAPIStockSP500List]
  · rw [IndexConstituentList_requests]; simp [indexURL, urlAPIStockDowJonesList, h21]
  · rw [IndexConstituentList_requests]; simp [indexURL, urlAPIStockNasdaqList, h31, h32]
  · rw [HistoryIndexConstituentList_requests]; simp [indexURL, urlAPIStockHistorySP500List]
  · rw [HistoryIndexConstituentList_requests]
    simp [indexURL, urlAPIStockHistoryDowJonesList, h21]
  · rw [HistoryIndexConstituentList_requests]
    simp [indexURL, urlAPIStockHistoryNasdaqList, h31, h32]
  · simp only [List.pairwise_cons, List.mem_cons, List.mem_singleton, List.not_mem_nil,
      forall_eq_or_imp, forall_eq, List.Pairwise.nil, and_true, IsEmpty.forall_iff,
      implies_true, ne_eq]
    refine ⟨⟨?_, ?_, ?_, ?_, ?_⟩, ⟨?_, ?_, ?_, ?_⟩, ⟨?_, ?_, ?_⟩, ⟨?_, ?_⟩, ?_⟩ <;>
      exact fun h => absurd (string_append_left_cancel _ _ _ h) (by decide)

/-- Witness of C4: the selectors as three distinct strings. -/
theorem index_selectors_route_to_distinct_paths_witness :
    (demoStock.IndexConstituentList refusing stubUnmarshal demoSelectors "dowjones").requests =
      [⟨"https://fmpcloud.io/api/v3" ++ "/dowjones_constituent", [("apikey", "demo")]⟩] ∧
    (demoStock.HistoryIndexConstituentList refusing stubUnmarshal demoSelectors
        "nasdaq100").requests =
      [⟨"https://fmpcloud.io/api/v3" ++ "/historical/nasdaq_constituent",
        [("apikey", "demo")]⟩] :=
  have h := index_selectors_route_to_distinct_paths demoStock refusing stubUnmarshal
    demoSelectors (by decide) (by decide) (by decide)
  ⟨h.2.1, h.2.2.2.2.2.1⟩

/-- Counterexample to C3: an index value different from the three selectors is not rejected: both
methods issue a GET to the bare base URL and, the transport and the decoder succeeding, return a
result and no error. -/
theorem unknown_index_is_requested :
    "ftse100" ≠ demoSelectors.IndexSP500 ∧ "ftse100" ≠ demoSelectors.IndexDowJones ∧
    "ftse100" ≠ demoSelectors.IndexNasdaq100 ∧
    (demoStock.IndexConstituentList (responding 200 "[]") stubUnmarshal demoSelectors
        "ftse100").steps =
      [Step.Get ⟨"https://fmpcloud.io/api/v3", [("apikey", "demo")]⟩, Step.Unmarshal "[]"] ∧
    (demoStock.IndexConstituentList (responding 200 "[]") stubUnmarshal demoSelectors
        "ftse100").err = none ∧
    (demoStock.IndexConstituentList (responding 200 "[]") stubUnmarshal demoSelectors
        "ftse100").result = some [] ∧
    (demoStock.HistoryIndexConstituentList (responding 200 "[]") stubUnmarshal demoSelectors
        "ftse100").steps =
      [Step.Get ⟨"https://fmpcloud.io/api/v3", [("apikey", "demo")]⟩, Step.Unmarshal "[]"] ∧
    (demoStock.HistoryIndexConstituentList (responding 200 "[]") stubUnmarshal demoSelectors
        "ftse100").err = none ∧
    (demoStock.HistoryIndexConstituentList (responding 200 "[]") stubUnmarshal demoSelectors
        "ftse100").result = some [] := by
  decide

/-- C3, amended: the three index selectors are the only values that route to a constituent
endpoint, but no value is rejected: for every index value different from all three,
IndexConstituentList and HistoryIndexConstituentList still issue one GET, to the base URL with no
path appended and the API key as only parameter, and return no error of their own: when the
transport and the decoder succeed, they return the decoded value and a nil error. -/
theorem unknown_index_requests_base_url {α ι : Type} [DecidableEq ι] (s : Stock)
    (Get : Transport) (U : Decoder (Option α)) (objects : IndexSelectors ι) (index : ι)
    (h1 : index ≠ objects.IndexSP500) (h2 : index ≠ objects.IndexDowJones)
    (h3 : index ≠ objects.IndexNasdaq100) :
    (s.IndexConstituentList Get U objects index).requests = [⟨s.url, [("apikey", s.apiKey)]⟩] ∧
    (s.HistoryIndexConstituentList Get U objects index).requests =
      [⟨s.url, [("apikey", s.apiKey)]⟩] ∧
    (∀ data v, Get ⟨s.url, [("apikey", s.apiKey)]⟩ = .ok data → U data.Body none = (v, none) →
      (s.IndexConstituentList Get U objects index).result = v ∧
      (s.IndexConstituentList Get U objects index).err = none ∧
      (s.HistoryIndexConstituentList Get U objects index).result = v ∧
      (s.HistoryIndexConstituentList Get U objects index).err = none) := by
  refine ⟨?_, ?_, ?_⟩
  · rw [IndexConstituentList_requests]; simp [indexURL, h1, h2, h3]
  · rw [HistoryIndexConstituentList_requests]; simp [indexURL, h1, h2, h3]
  · intro data v hget hdec
    simp [Stock.IndexConstituentList, Stock.HistoryIndexConstituentList, h1, h2, h3, hget, hdec]

/-- Witness of C3, amended: the index value ftse100 against the selectors as strings, on a
transport that answers with an empty array. -/
theorem unknown_index_requests_base_url_witness :
    (demoStock.IndexConstituentList (responding 200 "[]") stubUnmarshal demoSelectors
        "ftse100").requests = [⟨"https://fmpcloud.io/api/v3", [("apikey", "demo")]⟩] ∧
    (demoStock.IndexConstituentList (responding 200 "[]") stubUnmarshal demoSelectors
        "ftse100").err = none :=
  have h := unknown_index_requests_base_url demoStock (responding 200 "[]") stubUnmarshal
    demoSelectors "ftse100" (by decide) (by decide) (by decide)
  ⟨h.1, (h.2.2 ⟨200, "[]"⟩ (some []) rfl rfl).2.1⟩

/-! ## Values of the query parameters -/

theorem toDigitsCore_length_le (b : Nat) (fuel n : Nat) (ds : List Char) :
    ds.length ≤ (Nat.toDigitsCore b fuel n ds).length := by
  induction fuel generalizing n ds with
  | zero => simp [Nat.toDigitsCore]
  | succ f ih =>
    simp only [Nat.toDigitsCore]
    split
    · simp
    · exact Nat.le_trans (by simp) (ih _ _)

theorem Nat_repr_ne_empty (n : Nat) : Nat.repr n ≠ "" := by
  intro h
  have hd : (Nat.toDigits 10 n).length = 0 := congrArg String.length h
  have hl : 1 ≤ (Nat.toDigits 10 n).length := by
    unfold Nat.toDigits
    simp only [Nat.toDigitsCore]
    split
    · simp
    · exact Nat.le_trans (by simp) (toDigitsCore_length_le _ _ _ _)
  omega

theorem Sprint_ne_empty (x : Int) : Sprint x ≠ "" := by
  cases x with
  | ofNat m => exact Nat_repr_ne_empty m
  | negSucc m =>
    intro h
    have hd : ("-" ++ Nat.repr (m + 1)).data = [] := congrArg String.data h
    rw [String.data_append] at hd
    exact absurd hd (by simp)

theorem appendInt_length_le (b : List Char) (x : Int) (width : Nat) :
    b.length ≤ (appendInt b x width).length := by
  unfold appendInt
  simp only
  split_ifs <;> simp

theorem Format_ne_empty (t : Time) : t.Format ≠ "" := by
  intro h
  have hl := congrArg String.length h
  have := appendInt_length_le
    (appendInt (appendInt [] t.year 4 ++ ['-']) (Int.ofNat t.month) 2 ++ ['-']) (Int.ofNat t.day) 2
  simp [Time.Format, String.length] at hl this
  rw [hl] at this
  simp at this

/-- Counterexample to C5: with a non-empty API key, Search called with the empty query and no
exchange sends the parameter query with the empty string as its value, and DailyLine called with
the empty series type sends the parameter serietype with the empty string as its value. -/
theorem empty_query_and_serietype_are_sent :
    (demoStock.Search refusing stubUnmarshal ⟨"", 10, none⟩).requests =
      [⟨"https://fmpcloud.io/api/v3/search",
        [("apikey", "demo"), ("limit", "10"), ("query", "")]⟩] ∧
    (demoStock.DailyLine refusing stubUnmarshal "AAPL" "").requests =
      [⟨"https://fmpcloud.io/api/v3/historical-price-full/AAPL",
        [("apikey", "demo"), ("serietype", "")]⟩] := by
  decide

/-- C5, amended: filters held as nil-able values are individually omittable and absent from the
request when nil: Search and SearchTiker send the parameter exchange exactly when an exchange is
supplied, with its text.  The query of Search and SearchTiker and the series type of DailyLine
are not omittable: they are always sent with the given value, also when it is the empty string.
For every call on a client with a non-empty API key, a query parameter whose value is the empty
string can only be query, serietype or exchange. -/
theorem only_given_texts_can_be_empty {α ι : Type} [DecidableEq ι] (c : Client α ι)
    (call : Call ι) (req : RequestStockSearch) (symbol serieType : String)
    (hkey : c.stock.apiKey ≠ "") :
    (∃ r, (c.run call).requests = [r] ∧
      ∀ k v, (k, v) ∈ r.QueryParams → v = "" → k = "query" ∨ k = "serietype" ∨ k = "exchange") ∧
    (∃ r, (c.stock.Search c.Get c.Unmarshal req).requests = [r] ∧
      r.QueryParams.get? "exchange" = req.Exchange ∧
      r.QueryParams.get? "query" = some req.Query) ∧
    (∃ r, (c.stock.SearchTiker c.Get c.Unmarshal req).requests = [r] ∧
      r.QueryParams.get? "exchange" = req.Exchange ∧
      r.QueryParams.get? "query" = some req.Query) ∧
    (∃ r, (c.stock.DailyLine c.Get c.Unmarshal symbol serieType).requests = [r] ∧
      r.QueryParams.get? "serietype" = some serieType) := by
  refine ⟨⟨_, c.run_requests call, ?_⟩, ⟨_, c.run_requests (.Search req), ?_⟩,
    ⟨_, c.run_requests (.SearchTiker req), ?_⟩,
    ⟨_, c.run_requests (.DailyLine symbol serieType), ?_⟩⟩
  · intro k v hmem hv
    subst hv
    have hS : ∀ x, "" ≠ Sprint x := fun x => Ne.symm (Sprint_ne_empty x)
    have hF : ∀ t : Time, "" ≠ t.Format := fun t => Ne.symm (Format_ne_empty t)
    have hk := Ne.symm hkey
    cases call
    case Search r =>
      obtain ⟨q, l, e⟩ := r
      cases e <;> simp [Client.requestOf, searchParams, Params.set, hk, hS] at hmem <;> tauto
    case SearchTiker r =>
      obtain ⟨q, l, e⟩ := r
      cases e <;> simp [Client.requestOf, searchParams, Params.set, hk, hS] at hmem <;> tauto
    case Candles r =>
      obtain ⟨p, sy, f, t⟩ := r
      cases f <;> cases t <;> simp [Client.requestOf, rangeParams, Params.set, hk, hF] at hmem
    case DailyBatch l f t =>
      cases f <;> cases t <;> simp [Client.requestOf, rangeParams, Params.set, hk, hF] at hmem
    case DailyLine sy st =>
      simp [Client.requestOf, hk] at hmem
      tauto
    all_goals simp [Client.requestOf, hk, hF, hS] at hmem
  · exact ⟨(searchParams_spec _ _).2.2.2, (searchParams_spec _ _).2.2.1⟩
  · exact ⟨(searchParams_spec _ _).2.2.2, (searchParams_spec _ _).2.2.1⟩
  · simp [Client.requestOf, Params.get?]

/-- Witness of C5, amended: Search with a query and no exchange on the client with key demo. -/
theorem only_given_texts_can_be_empty_witness :
    ∃ r, ((demoClient refusing).stock.Search (demoClient refusing).Get
        (demoClient refusing).Unmarshal ⟨"apple", 10, none⟩).requests = [r] ∧
      r.QueryParams.get? "exchange" = none ∧ r.QueryParams.get? "query" = some "apple" :=
  (only_given_texts_can_be_empty (demoClient refusing) (.Search ⟨"apple", 10, none⟩)
    ⟨"apple", 10, none⟩ "AAPL" "line" (by decide)).2.1

/-! ## Optional date range -/

theorem appendInt_four (b : List Char) (x : Int) (h0 : 0 ≤ x) (h1 : x ≤ 9999) :
    appendInt b x 4 = b ++ [digit (x.natAbs / 1000), digit (x.natAbs / 100 % 10),
      digit (x.natAbs / 10 % 10), digit (x.natAbs % 10)] := by
  have hu : x.natAbs < 10000 := by omega
  have hx : ¬ x < 0 := by omega
  have e1 : x.natAbs / 100 / 10 = x.natAbs / 1000 := by omega
  have e2 : x.natAbs % 100 / 10 = x.natAbs / 10 % 10 := by omega
  have e3 : x.natAbs % 100 % 10 = x.natAbs % 10 := by omega
  simp [appendInt, hu, hx, utoa2, e1, e2, e3]

theorem appendInt_two (b : List Char) (n : Nat) (h : n < 100) :
    appendInt b (Int.ofNat n) 2 = b ++ [digit (n / 10), digit (n % 10)] := by
  simp [appendInt, h, utoa2]

theorem Format_data (t : Time) (h0 : 0 ≤ t.year) (h1 : t.year ≤ 9999) :
    t.Format.data = [digit (t.year.natAbs / 1000), digit (t.year.natAbs / 100 % 10),
      digit (t.year.natAbs / 10 % 10), digit (t.year.natAbs % 10), '-',
      digit (t.month / 10), digit (t.month % 10), '-', digit (t.day / 10), digit (t.day % 10)] := by
  have hm : t.month < 100 := by have := t.month_range; omega
  have hd : t.day < 100 := by have := t.day_range; omega
  simp only [Time.Format]
  rw [appendInt_four _ _ h0 h1, appendInt_two _ _ hm, appendInt_two _ _ hd]
  simp

theorem Candles_requests {α : Type} (s : Stock) (Get : Transport) (U : Decoder (Option α))
    (req : RequestStockCandleList) :
    (s.Candles Get U req).requests =
      [⟨s.url ++ Sprintf urlAPIStockCandles [req.Period, req.Symbol],
        rangeParams s.apiKey req.From req.To⟩] :=
  Client.run_requests ⟨s, Get, U, fun _ t => (t, none), (⟨(), (), ()⟩ : IndexSelectors Unit)⟩
    (.Candles req)

theorem DailyBatch_requests {α : Type} (s : Stock) (Get : Transport)
    (U : Decoder (StockBatchDaily α)) (symbolList : List String) (f t : Option Time) :
    (s.DailyBatch Get U symbolList f t).requests =
      [⟨s.url ++ Sprintf urlAPIStockDaily [Join symbolList ","], rangeParams s.apiKey f t⟩] :=
  Client.run_requests ⟨s, Get, fun _ t => (t, none), U, (⟨(), (), ()⟩ : IndexSelectors Unit)⟩
    (.DailyBatch symbolList f t)

/-- Counterexample to C1: a bound in the year 10000 is sent as an 11-character value. -/
theorem year_10000_is_sent_with_five_digits :
    (demoStock.Candles refusing stubUnmarshal
      ⟨"1min", "AAPL", some ⟨10000, 1, 1, by decide, by decide⟩, none⟩).requests =
      [⟨"https://fmpcloud.io/api/v3/historical-chart/1min/AAPL",
        [("apikey", "demo"), ("from", "10000-01-01")]⟩] ∧
    (demoStock.DailyBatch refusing stubUnmarshalBatch ["AAPL"] none
      (some ⟨10000, 1, 1, by decide, by decide⟩)).requests =
      [⟨"https://fmpcloud.io/api/v3/historical-price-full/AAPL",
        [("apikey", "demo"), ("to", "10000-01-01")]⟩] ∧
    "10000-01-01".length = 11 := by
  decide

/-- C1, amended: for Candles and DailyBatch, on every input, the query parameters contain the key
from exactly when the from bound is supplied and the key to exactly when the to bound is
supplied, each independently of the other, the value of a supplied bound being the bound
formatted with the layout 2006-01-02; with neither bound the map is exactly the API key entry.
For a bound whose year is between 0 and 9999 the value is the 10-character zero-padded calendar
date YYYY-MM-DD (four digits of the year, a dash, two digits of the month, a dash, two digits of
the day). -/
theorem date_range_parameters {α : Type} (s : Stock) (Get : Transport)
    (U : Decoder (Option α)) (UB : Decoder (StockBatchDaily α)) (req : RequestStockCandleList)
    (symbolList : List String) (from_ to_ : Option Time) :
    (∃ r, (s.Candles Get U req).requests = [r] ∧
      r.QueryParams.get? "from" = req.From.map Time.Format ∧
      r.QueryParams.get? "to" = req.To.map Time.Format ∧
      r.QueryParams.get? "apikey" = some s.apiKey ∧
      (req.From = none → req.To = none → r.QueryParams = [("apikey", s.apiKey)])) ∧
    (∃ r, (s.DailyBatch Get UB symbolList from_ to_).requests = [r] ∧
      r.QueryParams.get? "from" = from_.map Time.Format ∧
      r.QueryParams.get? "to" = to_.map Time.Format ∧
      r.QueryParams.get? "apikey" = some s.apiKey ∧
      (from_ = none → to_ = none → r.QueryParams = [("apikey", s.apiKey)])) ∧
    (∀ t : Time, 0 ≤ t.year → t.year ≤ 9999 →
      t.Format.length = 10 ∧
      t.Format.data = [digit (t.year.natAbs / 1000), digit (t.year.natAbs / 100 % 10),
        digit (t.year.natAbs / 10 % 10), digit (t.year.natAbs % 10), '-',
        digit (t.month / 10), digit (t.month % 10), '-',
        digit (t.day / 10), digit (t.day % 10)]) := by
  refine ⟨⟨_, Candles_requests s Get U req, rangeParams_spec _ _ _⟩,
    ⟨_, DailyBatch_requests s Get UB symbolList from_ to_, rangeParams_spec _ _ _⟩, ?_⟩
  intro t h0 h1
  have hd := Format_data t h0 h1
  refine ⟨?_, hd⟩
  show t.Format.data.length = 10
  rw [hd]
  rfl

/-- Witness of C1, amended: 5 March 2021 is sent as 2021-03-05. -/
theorem date_range_parameters_witness :
    (Time.mk 2021 3 5 (by decide) (by decide)).Format.length = 10 ∧
    (Time.mk 2021 3 5 (by decide) (by decide)).Format = "2021-03-05" :=
  have h := (date_range_parameters demoStock refusing stubUnmarshal stubUnmarshalBatch
    ⟨"1min", "AAPL", none, none⟩ ["AAPL"] none none).2.2
    (Time.mk 2021 3 5 (by decide) (by decide)) (by decide) (by decide)
  ⟨h.1, String.ext (h.2.trans (by decide))⟩

/-! ## Symbol lists -/

theorem Sprintf_quote (a : String) : Sprintf urlAPIStockQuote [a] = "/quote/" ++ a := by
  apply String.ext
  simp [Sprintf, sprintfAux, urlAPIStockQuote]

theorem Sprintf_daily (a : String) :
    Sprintf urlAPIStockDaily [a] = "/historical-price-full/" ++ a := by
  apply String.ext
  simp [Sprintf, sprintfAux, urlAPIStockDaily]

theorem Sprintf_batchEOD (a : String) :
    Sprintf urlAPIStockEODBatchCandles [a] = "/batch-request-end-of-day-prices/" ++ a := by
  apply String.ext
  simp [Sprintf, sprintfAux, urlAPIStockEODBatchCandles]

theorem foldl_join_data (sep : String) (rest : List String) (e : String) :
    (rest.foldl (fun b s => b ++ sep ++ s) e).data =
      e.data ++ (rest.map fun s => sep.data ++ s.data).flatten := by
  induction rest generalizing e with
  | nil => simp
  | cons x xs ih => simp [ih]

theorem intercalate_cons_cons {β : Type} (sep a b : List β) (l : List (List β)) :
    sep.intercalate (a :: b :: l) = a ++ sep ++ sep.intercalate (b :: l) := by
  simp [List.intercalate, List.intersperse]

theorem intercalate_eq_flatten {β : Type} (sep a : List β) (l : List (List β)) :
    sep.intercalate (a :: l) = a ++ (l.map fun s => sep ++ s).flatten := by
  induction l generalizing a with
  | nil => simp [List.intercalate]
  | cons b l ih => rw [intercalate_cons_cons, ih]; simp

theorem Join_data (elems : List String) (sep : String) :
    (Join elems sep).data = sep.data.intercalate (elems.map String.data) := by
  match elems with
  | [] => simp [Join, List.intercalate]
  | [e] => simp [Join, List.intercalate]
  | e :: e2 :: rest =>
    simp only [Join, foldl_join_data, List.map_cons, intercalate_eq_flatten]
    simp [Function.comp_def]

theorem commasApart_of_not_mem (l : List Char) (h : ',' ∉ l) :
    List.Chain' (fun a b => ¬ (a = ',' ∧ b = ',')) l := by
  induction l with
  | nil => exact List.chain'_nil
  | cons a l ih =>
    rw [List.chain'_cons']
    refine ⟨?_, ih (fun hm => h (List.mem_cons_of_mem _ hm))⟩
    intro y _ hy
    exact h (by rw [hy.1]; exact List.mem_cons_self _ _)

theorem intercalate_pieces (L : List (List Char)) (hne : L ≠ [])
    (h : ∀ l ∈ L, l ≠ [] ∧ ',' ∉ l) :
    ([','].intercalate L).head? ≠ some ',' ∧ ([','].intercalate L).getLast? ≠ some ',' ∧
      List.Chain' (fun a b => ¬ (a = ',' ∧ b = ',')) ([','].intercalate L) ∧
      [','].intercalate L ≠ [] := by
  induction L with
  | nil => exact absurd rfl hne
  | cons a L ih =>
    have ha := h a (List.mem_cons_self _ _)
    cases L with
    | nil =>
      have e : [','].intercalate [a] = a := by simp [List.intercalate]
      rw [e]
      refine ⟨?_, ?_, commasApart_of_not_mem a ha.2, ha.1⟩
      · intro hh
        exact ha.2 (List.mem_of_mem_head? hh)
      · intro hh
        exact ha.2 (List.mem_of_mem_getLast? hh)
    | cons b L =>
      have ih := ih (by simp) (fun l hl => h l (List.mem_cons_of_mem _ hl))
      rw [intercalate_cons_cons]
      obtain ⟨c, cs, rfl⟩ := List.exists_cons_of_ne_nil ha.1
      obtain ⟨ih1, ih2, ih3, ih4⟩ := ih
      refine ⟨?_, ?_, ?_, by simp⟩
      · intro hh
        simp at hh
        exact ha.2 (by rw [hh]; exact List.mem_cons_self _ _)
      · rw [List.getLast?_append_of_ne_nil _ ih4]
        exact ih2
      · rw [List.chain'_append]
        refine ⟨?_, ih3, ?_⟩
        · rw [List.chain'_append]
          refine ⟨commasApart_of_not_mem _ ha.2, List.chain'_singleton _, ?_⟩
          intro x hx y _ hxy
          exact ha.2 (by rw [← hxy.1]; exact List.mem_of_mem_getLast? hx)
        · intro x _ y hy hxy
          obtain ⟨_, rfl⟩ := hxy
          exact ih1 hy

theorem intercalate_append {β : Type} (sep : List β) (L1 L2 : List (List β)) (h1 : L1 ≠ [])
    (h2 : L2 ≠ []) :
    sep.intercalate (L1 ++ L2) = sep.intercalate L1 ++ sep ++ sep.intercalate L2 := by
  induction L1 with
  | nil => exact absurd rfl h1
  | cons a L ih =>
    cases L with
    | nil =>
      obtain ⟨b, L2, rfl⟩ := List.exists_cons_of_ne_nil h2
      have e : sep.intercalate [a] = a := by simp [List.intercalate]
      rw [e]
      exact intercalate_cons_cons sep a b L2
    | cons a2 L =>
      have ih := ih (by simp)
      rw [List.cons_append, List.cons_append, intercalate_cons_cons, ← List.cons_append, ih,
        intercalate_cons_cons]
      simp [List.append_assoc]

theorem Join_append (l1 l2 : List String) (h1 : l1 ≠ []) (h2 : l2 ≠ []) :
    Join (l1 ++ l2) "," = Join l1 "," ++ "," ++ Join l2 "," := by
  apply String.ext
  rw [String.data_append, String.data_append, Join_data, Join_data, Join_data, List.map_append]
  exact intercalate_append _ _ _ (by simpa using h1) (by simpa using h2)

theorem intercalate_ends {β : Type} (sep : List β) (L : List (List β))
    (h : ∀ l ∈ L, l ≠ []) :
    (∀ a ∈ L.head?, (sep.intercalate L).head? = a.head?) ∧
    (∀ z ∈ L.getLast?, (sep.intercalate L).getLast? = z.getLast?) ∧
    (L ≠ [] → sep.intercalate L ≠ []) := by
  induction L with
  | nil => simp
  | cons a L ih =>
    have ha := h a (List.mem_cons_self _ _)
    cases L with
    | nil =>
      have e : sep.intercalate [a] = a := by simp [List.intercalate]
      rw [e]
      simp [ha]
    | cons b L =>
      obtain ⟨_, ih2, ih3⟩ := ih (fun l hl => h l (List.mem_cons_of_mem _ hl))
      have hne : sep.intercalate (b :: L) ≠ [] := ih3 (by simp)
      rw [intercalate_cons_cons]
      refine ⟨?_, ?_, ?_⟩
      · intro x hx
        obtain rfl : a = x := by simpa using hx
        rw [List.append_assoc, List.head?_append_of_ne_nil _ ha]
      · intro z hz
        rw [List.getLast?_append_of_ne_nil _ hne]
        exact ih2 z (by simpa [List.getLast?_cons_cons] using hz)
      · intro _ hh
        simp at hh
        exact ha hh.1

theorem BatchQuote_requests {α : Type} (s : Stock) (Get : Transport) (U : Decoder (Option α))
    (symbolList : List String) :
    (s.BatchQuote Get U symbolList).requests =
      [⟨s.url ++ Sprintf urlAPIStockQuote [Join symbolList ","], [("apikey", s.apiKey)]⟩] :=
  Client.run_requests ⟨s, Get, U, fun _ t => (t, none), (⟨(), (), ()⟩ : IndexSelectors Unit)⟩
    (.BatchQuote symbolList)

theorem BatchEODCandleList_requests {α : Type} (s : Stock) (Get : Transport)
    (U : Decoder (Option α)) (symbolList : List String) (date : Time) :
    (s.BatchEODCandleList Get U symbolList date).requests =
      [⟨s.url ++ Sprintf urlAPIStockEODBatchCandles [Join symbolList ","],
        [("apikey", s.apiKey), ("date", date.Format)]⟩] :=
  Client.run_requests ⟨s, Get, U, fun _ t => (t, none), (⟨(), (), ()⟩ : IndexSelectors Unit)⟩
    (.BatchEODCandleList symbolList date)

/-- Counterexample to C2: the symbols A, (ending in a comma) and B are both non-empty, yet the
segment A,,B has a doubled comma; the three methods request /quote/A,,B,
/historical-price-full/A,,B and /batch-request-end-of-day-prices/A,,B.  With the single non-empty
symbol , (a comma) the segment has a leading and trailing comma. -/
theorem symbol_with_comma_gives_doubled_comma :
    (∀ x ∈ ["A,", "B"], x ≠ "") ∧
    Join ["A,", "B"] "," = "A,,B" ∧
    ¬ List.Chain' (fun a b => ¬ (a = ',' ∧ b = ',')) (Join ["A,", "B"] ",").data ∧
    (demoStock.BatchQuote refusing stubUnmarshal ["A,", "B"]).requests.map Request.url =
      ["https://fmpcloud.io/api/v3/quote/A,,B"] ∧
    (demoStock.DailyBatch refusing stubUnmarshalBatch ["A,", "B"] none none).requests.map
        Request.url = ["https://fmpcloud.io/api/v3/historical-price-full/A,,B"] ∧
    (demoStock.BatchEODCandleList refusing stubUnmarshal ["A,", "B"]
        (Time.mk 2021 3 5 (by decide) (by decide))).requests.map Request.url =
      ["https://fmpcloud.io/api/v3/batch-request-end-of-day-prices/A,,B"] ∧
    (∀ x ∈ [","], x ≠ "") ∧
    (Join [","] ",").data.head? = some ',' ∧
    (Join [","] ",").data.getLast? = some ',' := by
  refine ⟨by decide, by decide, ?_, by decide, by decide, by decide, by decide, by decide,
    by decide⟩
  have e : (Join ["A,", "B"] ",").data = ['A', ',', ',', 'B'] := by decide
  rw [e]
  intro h
  simp at h

/-- C2, amended: for BatchQuote, DailyBatch and BatchEODCandleList and every list of symbols, the
request URL is the base URL followed by the path template of the endpoint with its placeholder
replaced by the symbols joined with a comma in input order: the segment is the symbols with one
comma between each two consecutive ones, so that the segment of two lists put together is the
segment of the first, a comma, and the segment of the second.  For non-empty symbols the segment
begins with the first character of the first symbol and ends with the last character of the last
symbol.  For a non-empty list of non-empty symbols that contain no comma themselves, the segment
has no leading, trailing or doubled comma, and splitting it at the commas gives back the
symbols.  The list AAPL, MSFT gives the segment AAPL,MSFT, hence the paths /quote/AAPL,MSFT,
/historical-price-full/AAPL,MSFT and /batch-request-end-of-day-prices/AAPL,MSFT. -/
theorem batch_symbols_are_comma_joined {α : Type} (s : Stock) (Get : Transport)
    (U : Decoder (Option α)) (UB : Decoder (StockBatchDaily α)) (symbolList : List String)
    (from_ to_ : Option Time) (date : Time) :
    ((s.BatchQuote Get U symbolList).requests.map Request.url =
        [s.url ++ ("/quote/" ++ Join symbolList ",")] ∧
      (s.DailyBatch Get UB symbolList from_ to_).requests.map Request.url =
        [s.url ++ ("/historical-price-full/" ++ Join symbolList ",")] ∧
      (s.BatchEODCandleList Get U symbolList date).requests.map Request.url =
        [s.url ++ ("/batch-request-end-of-day-prices/" ++ Join symbolList ",")]) ∧
    (Join symbolList ",").data = [','].intercalate (symbolList.map String.data) ∧
    (∀ l1 l2 : List String, l1 ≠ [] → l2 ≠ [] →
      Join (l1 ++ l2) "," = Join l1 "," ++ "," ++ Join l2 ",") ∧
    ((∀ x ∈ symbolList, x ≠ "") →
      (∀ a ∈ symbolList.head?, (Join symbolList ",").data.head? = a.data.head?) ∧
      (∀ z ∈ symbolList.getLast?, (Join symbolList ",").data.getLast? = z.data.getLast?)) ∧
    (symbolList ≠ [] → (∀ x ∈ symbolList, x ≠ "" ∧ ',' ∉ x.data) →
      (Join symbolList ",").data.head? ≠ some ',' ∧
      (Join symbolList ",").data.getLast? ≠ some ',' ∧
      List.Chain' (fun a b => ¬ (a = ',' ∧ b = ',')) (Join symbolList ",").data ∧
      List.splitOn ',' (Join symbolList ",").data = symbolList.map String.data) ∧
    ((s.BatchQuote Get U ["AAPL", "MSFT"]).requests.map Request.url =
        [s.url ++ "/quote/AAPL,MSFT"] ∧
      (s.DailyBatch Get UB ["AAPL", "MSFT"] from_ to_).requests.map Request.url =
        [s.url ++ "/historical-price-full/AAPL,MSFT"] ∧
      (s.BatchEODCandleList Get U ["AAPL", "MSFT"] date).requests.map Request.url =
        [s.url ++ "/batch-request-end-of-day-prices/AAPL,MSFT"]) := by
  have hurl : ∀ l : List String,
      (s.BatchQuote Get U l).requests.map Request.url = [s.url ++ ("/quote/" ++ Join l ",")] ∧
      (s.DailyBatch Get UB l from_ to_).requests.map Request.url =
        [s.url ++ ("/historical-price-full/" ++ Join l ",")] ∧
      (s.BatchEODCandleList Get U l date).requests.map Request.url =
        [s.url ++ ("/batch-request-end-of-day-prices/" ++ Join l ",")] := by
    intro l
    rw [BatchQuote_requests, DailyBatch_requests, BatchEODCandleList_requests, Sprintf_quote,
      Sprintf_daily, Sprintf_batchEOD]
    exact ⟨rfl, rfl, rfl⟩
  have hdata : (Join symbolList ",").data = [','].intercalate (symbolList.map String.data) :=
    Join_data symbolList ","
  refine ⟨hurl symbolList, hdata, Join_append, ?_, ?_, hurl ["AAPL", "MSFT"]⟩
  · intro hsym
    have hL : ∀ l ∈ symbolList.map String.data, l ≠ [] := by
      intro l hl
      obtain ⟨x, hx, rfl⟩ := List.mem_map.mp hl
      exact fun h => hsym x hx (String.ext h)
    obtain ⟨h1, h2, _⟩ := intercalate_ends [','] _ hL
    rw [hdata]
    constructor
    · intro a ha
      exact h1 a.data (by simp only [List.head?_map]; exact Option.mem_map_of_mem _ ha)
    · intro z hz
      exact h2 z.data (by simp only [List.getLast?_map]; exact Option.mem_map_of_mem _ hz)
  · intro hne hsym
    have hL : ∀ l ∈ symbolList.map String.data, l ≠ [] ∧ ',' ∉ l := by
      intro l hl
      obtain ⟨x, hx, rfl⟩ := List.mem_map.mp hl
      exact ⟨fun h => (hsym x hx).1 (String.ext h), (hsym x hx).2⟩
    have hLne : symbolList.map String.data ≠ [] := by simpa using hne
    obtain ⟨h1, h2, h3, _⟩ := intercalate_pieces _ hLne hL
    rw [hdata]
    exact ⟨h1, h2, h3, List.splitOn_intercalate _ ',' (fun l hl => (hL l hl).2) hLne⟩

/-- Witness of C2, amended: the symbols AAPL and MSFT. -/
theorem batch_symbols_are_comma_joined_witness :
    (Join (["AAPL"] ++ ["MSFT"]) "," = Join ["AAPL"] "," ++ "," ++ Join ["MSFT"] ",") ∧
    ((Join ["AAPL", "MSFT"] ",").data.head? = some 'A' ∧
      (Join ["AAPL", "MSFT"] ",").data.getLast? = some 'T') ∧
    ((Join ["AAPL", "MSFT"] ",").data.head? ≠ some ',' ∧
      (Join ["AAPL", "MSFT"] ",").data.getLast? ≠ some ',' ∧
      List.Chain' (fun a b => ¬ (a = ',' ∧ b = ',')) (Join ["AAPL", "MSFT"] ",").data ∧
      List.splitOn ',' (Join ["AAPL", "MSFT"] ",").data = ["AAPL", "MSFT"].map String.data) :=
  have h := batch_symbols_are_comma_joined demoStock refusing stubUnmarshal stubUnmarshalBatch
    ["AAPL", "MSFT"] none none (Time.mk 2021 3 5 (by decide) (by decide))
  ⟨h.2.2.1 ["AAPL"] ["MSFT"] (by decide) (by decide),
    ⟨(h.2.2.2.1 (by decide)).1 "AAPL" rfl, (h.2.2.2.1 (by decide)).2 "MSFT" rfl⟩,
    h.2.2.2.2.1 (by decide) (by decide)⟩

end Fmpcloud
